import Mathlib

/-!
Verification of the zabbix_loadtest repository: a shallow embedding of its
four Go variants (the curl-based `loadTestZabbix.go`, the bearer-token
HTTP variants, and the lookup-before-create variant) together with an
idealized model of the remote Zabbix JSON-RPC server, and proofs of the
specification's testable properties.
-/

namespace ZabbixLoadTest

/-! ### Decimal-representation toolkit

`fmt.Sprintf("PerfTestHost-%d", i)` in the source is mirrored by
`"PerfTestHost-" ++ toString i` in the embedding; distinctness of the
generated names requires injectivity of `Nat.repr`, proved here via a
verified decimal parser. -/

/-- Accumulator lemma for `Nat.toDigitsCore`: the accumulator is a suffix. -/
theorem toDigitsCore_acc (b : Nat) :
    ∀ (fuel n : Nat) (ds : List Char),
      Nat.toDigitsCore b fuel n ds = Nat.toDigitsCore b fuel n [] ++ ds := by
  intro fuel
  induction fuel with
  | zero => intro n ds; simp [Nat.toDigitsCore]
  | succ f ih =>
    intro n ds
    simp only [Nat.toDigitsCore]
    by_cases h : n / b = 0
    · simp [h]
    · simp only [h, if_false]
      rw [ih (n / b) (Nat.digitChar (n % b) :: ds), ih (n / b) [Nat.digitChar (n % b)]]
      simp

/-- Fuel irrelevance for `Nat.toDigitsCore` once the fuel exceeds the argument. -/
theorem toDigitsCore_fuel :
    ∀ (n f f' : Nat), n < f → n < f' →
      Nat.toDigitsCore 10 f n [] = Nat.toDigitsCore 10 f' n [] := by
  intro n
  induction n using Nat.strong_induction_on with
  | _ n ih =>
    intro f f' hf hf'
    match f, f' with
    | f + 1, f' + 1 =>
      simp only [Nat.toDigitsCore]
      by_cases h : n / 10 = 0
      · simp [h]
      · simp only [h, if_false]
        rw [toDigitsCore_acc 10 f, toDigitsCore_acc 10 f']
        have hlt : n / 10 < n := Nat.div_lt_self (Nat.pos_of_ne_zero (by
          intro hn; rw [hn] at h; simp at h)) (by omega)
        rw [ih (n / 10) hlt f f' (by omega) (by omega)]

/-- The decimal digit list of `n`, most significant first. -/
def digs (n : Nat) : List Char :=
  Nat.toDigitsCore 10 (n + 1) n []

theorem digs_lt_ten (n : Nat) (h : n < 10) : digs n = [Nat.digitChar n] := by
  unfold digs
  simp only [Nat.toDigitsCore]
  rw [Nat.div_eq_of_lt h, Nat.mod_eq_of_lt h]
  simp

theorem digs_ge_ten (n : Nat) (h : 10 ≤ n) :
    digs n = digs (n / 10) ++ [Nat.digitChar (n % 10)] := by
  unfold digs
  conv_lhs => simp only [Nat.toDigitsCore]
  have hne : n / 10 ≠ 0 := by
    have := Nat.div_le_div_right (c := 10) h
    simp at this; omega
  simp only [hne, if_false]
  rw [toDigitsCore_acc]
  have hlt : n / 10 < n := Nat.div_lt_self (by omega) (by omega)
  rw [toDigitsCore_fuel (n / 10) n (n / 10 + 1) hlt (Nat.lt_succ_self _)]

/-- Value of a decimal digit character. -/
def chVal (c : Char) : Nat := c.toNat - 48

/-- Decimal value of a digit string, most significant first. -/
def decVal (cs : List Char) : Nat :=
  cs.foldl (fun a c => 10 * a + chVal c) 0

theorem decVal_append_one (xs : List Char) (c : Char) :
    decVal (xs ++ [c]) = 10 * decVal xs + chVal c := by
  unfold decVal
  rw [List.foldl_append]
  rfl

theorem chVal_digitChar (r : Nat) (h : r < 10) : chVal (Nat.digitChar r) = r := by
  interval_cases r <;> rfl

theorem decVal_digs (n : Nat) : decVal (digs n) = n := by
  induction n using Nat.strong_induction_on with
  | _ n ih =>
    by_cases h : n < 10
    · rw [digs_lt_ten n h]
      unfold decVal
      simp [chVal_digitChar n h]
    · rw [digs_ge_ten n (by omega), decVal_append_one,
        ih (n / 10) (Nat.div_lt_self (by omega) (by omega)),
        chVal_digitChar (n % 10) (Nat.mod_lt n (by omega))]
      omega

theorem natRepr_injective : Function.Injective Nat.repr := by
  intro m n h
  have hd : digs m = digs n := by
    have : (digs m).asString = (digs n).asString := h
    have := congrArg String.data this
    simpa [List.asString] using this
  calc m = decVal (digs m) := (decVal_digs m).symm
    _ = decVal (digs n) := by rw [hd]
    _ = n := decVal_digs n

theorem natToString_injective : Function.Injective (fun n : Nat => toString n) :=
  natRepr_injective

/-! ### JSON value model

Request parameters and response payloads exchanged with the remote API are
JSON values; `Json` models the fragment of JSON the program uses. -/

inductive Json where
  | null : Json
  | bool (b : Bool) : Json
  | num (n : Int) : Json
  | str (s : String) : Json
  | arr (xs : List Json) : Json
  | obj (fs : List (String × Json)) : Json

/-- Field lookup on a JSON object; `none` for a missing field or a non-object. -/
def Json.getField : Json → String → Option Json
  | .obj fs, k => fs.lookup k
  | _, _ => none

/-! ### Go decode helpers

These model the exact `json.Unmarshal` uses occurring in the source.
Go fills decoded slices element by element and stops at the first
type-mismatched element, returning an error the source discards. -/

/-- Longest all-string prefix of a JSON list, as Go fills a `[]string`. -/
def goPrefixStrings : List Json → List String
  | [] => []
  | .str s :: rest => s :: goPrefixStrings rest
  | _ :: _ => []

/-- Models Go decoding of a `[]string`: non-arrays decode to the nil slice. -/
def goStringList : Json → List String
  | .arr xs => goPrefixStrings xs
  | _ => []

/-- Models `resp["groupids"]`-style access after decoding into
`map[string][]string` (or the equivalent struct with a `groupids` tag):
a missing field or non-object payload yields the nil slice. -/
def goStringListField (j : Json) (field : String) : List String :=
  match j.getField field with
  | some v => goStringList v
  | none => []

/-- Models `parsed.GroupIDs[0]` / `resp["groupids"][0]`: the unchecked
index into the decoded identifier list. `none` models the Go panic
(index out of range on a nil or empty slice). -/
def extractCreatedId (field : String) (j : Json) : Option String :=
  (goStringListField j field).head?

/-- Longest all-object prefix of a JSON list, as Go fills a
`[]map[string]interface` slice. -/
def goPrefixObjs : List Json → List (List (String × Json))
  | [] => []
  | .obj fs :: rest => fs :: goPrefixObjs rest
  | _ :: _ => []

/-- Models Go decoding of a `[]map[string]interface` lookup result:
non-arrays decode to the nil slice. -/
def goObjList : Json → List (List (String × Json))
  | .arr xs => goPrefixObjs xs
  | _ => []

/-- Models `existingGroups[0]["groupid"].(string)`: map access followed by
an unchecked string type assertion. `none` models the Go panic (failed
type assertion on a missing key or non-string value). -/
def assertStringField (m : List (String × Json)) (k : String) : Option String :=
  match m.lookup k with
  | some (.str s) => some s
  | _ => none

/-! ### Transport client

Embeds `callZabbixAPI` of the HTTP variants (bearer-token header) and of
the curl variant (in-body `auth` field). The network is abstracted by a
`WireOutcome`: what comes back from the single POST. -/

/-- The `error` member of the response envelope (`ZabbixAPIError` in the source). -/
structure ZabbixAPIError where
  code : Int
  message : String
  data : String
deriving DecidableEq, Repr

/-- Request envelope of the HTTP variants (`ZabbixRequest`: jsonrpc, method, params, id). -/
structure ZabbixRequest where
  jsonrpc : String
  method : String
  params : Json
  id : Int

/-- Request envelope of the curl variant, which carries the credential in-body. -/
structure ZabbixRequestAuth where
  jsonrpc : String
  method : String
  params : Json
  auth : String
  id : Int

/-- Response envelope (`ZabbixResponse`: jsonrpc, result, optional error). -/
structure ZabbixResponse where
  jsonrpc : String
  result : Json
  error : Option ZabbixAPIError

/-- What the single POST yields: a network/timeout failure, a body that
fails JSON decoding, or a decoded response envelope. -/
inductive WireOutcome where
  | netErr (msg : String) : WireOutcome
  | badBody : WireOutcome
  | goodBody (resp : ZabbixResponse) : WireOutcome

/-- Failure modes of one API call as classified by the source. -/
inductive CallErr where
  | transport (msg : String) : CallErr
  | decode : CallErr
  | api (e : ZabbixAPIError) : CallErr
deriving DecidableEq, Repr

/-- One HTTP POST as issued by the HTTP variants: URL, Content-Type header,
Authorization header, and the serialized envelope. -/
structure HttpPost where
  url : String
  contentType : String
  authorization : String
  body : ZabbixRequest

/-- One curl invocation as issued by `loadTestZabbix.go`. -/
structure CurlPost where
  url : String
  contentType : String
  body : ZabbixRequestAuth

/-- Embeds `callZabbixAPI` of the HTTP variants: serialize the envelope, POST once
with a bearer Authorization header, then classify the wire outcome as a
transport error, a decode error, an API error, or the raw result payload.
The list records every POST performed (always exactly one). -/
def callZabbixAPI (apiURL token method : String) (params : Json) (wire : WireOutcome) :
    List HttpPost × Except CallErr Json :=
  let req : ZabbixRequest := ⟨"2.0", method, params, 1⟩
  let post : HttpPost := ⟨apiURL, "application/json", "Bearer " ++ token, req⟩
  ([post],
    match wire with
    | .netErr m => .error (.transport m)
    | .badBody => .error .decode
    | .goodBody r =>
        match r.error with
        | some e => .error (.api e)
        | none => .ok r.result)

/-- Embeds `callZabbixAPI` of the curl variant: the credential travels in-body in
the `auth` field, and every failure is `log.Fatalf` (modelled as `none`:
the process terminates). -/
def callZabbixAPICurl (url token method : String) (params : Json) (wire : WireOutcome) :
    List CurlPost × Option Json :=
  let req : ZabbixRequestAuth := ⟨"2.0", method, params, token, 1⟩
  let post : CurlPost := ⟨url, "application/json", req⟩
  ([post],
    match wire with
    | .netErr _ => none
    | .badBody => none
    | .goodBody r =>
        match r.error with
        | some _ => none
        | none => some r.result)

/-! ### API call-site parameters, from the source

Variant 1 is `src/unnamed/part_001` (lookup-before-create, names
`PerformanceTestGroup` / `PerfTestHost-i` / `perf.test[j]`); the same
create parameters appear in `src/unnamed/part_000`. Variant 0 is
`src/loadTestZabbix.go` (create-only, names `LoadTestGroup` /
`LoadTestHost_i` / `loadtest.item.j`, hardcoded interface IP). -/

def groupName1 : String := "PerformanceTestGroup"

def hostNameStr (i : Nat) : String := "PerfTestHost-" ++ toString i

def itemKeyStr (j : Nat) : String := "perf.test[" ++ toString j ++ "]"

def itemNameStr (j : Nat) : String := "PerfItem-" ++ toString j

def groupGetParams : Json :=
  .obj [("output", .str "extend"), ("filter", .obj [("name", .str groupName1)])]

def groupCreateParams : Json := .obj [("name", .str groupName1)]

def hostGetParams (hostName : String) : Json :=
  .obj [("output", .str "extend"), ("filter", .obj [("host", .str hostName)])]

def interfaceParams (serverDNS : String) : Json :=
  .obj [("type", .num 1), ("main", .num 1), ("useip", .num 1),
        ("ip", .str serverDNS), ("dns", .str ""), ("port", .str "10050")]

def hostCreateParams (hostName serverDNS groupID : String) : Json :=
  .obj [("host", .str hostName),
        ("interfaces", .arr [interfaceParams serverDNS]),
        ("groups", .arr [.obj [("groupid", .str groupID)]])]

def itemGetParams (hostID itemKey : String) : Json :=
  .obj [("output", .str "extend"), ("hostids", .str hostID),
        ("search", .obj [("key_", .str itemKey)])]

def itemCreateParams (j : Nat) (hostID : String) : Json :=
  .obj [("name", .str (itemNameStr j)), ("key_", .str (itemKeyStr j)),
        ("hostid", .str hostID), ("type", .num 2), ("value_type", .num 0),
        ("delay", .str "0")]

def groupName0 : String := "LoadTestGroup"

def hostName0Str (i : Nat) : String := "LoadTestHost_" ++ toString i

def itemKey0Str (j : Nat) : String := "loadtest.item." ++ toString j

def groupCreateParams0 : Json := .obj [("name", .str groupName0)]

def hostCreateParams0 (name groupID : String) : Json :=
  .obj [("host", .str name),
        ("groups", .arr [.obj [("groupid", .str groupID)]]),
        ("interfaces", .arr [.obj [("type", .num 1), ("main", .num 1),
          ("useip", .num 1), ("ip", .str "127.0.0.1"), ("dns", .str ""),
          ("port", .str "10050")]])]

def itemCreateParams0 (key hostID : String) : Json :=
  .obj [("name", .str key), ("key_", .str key), ("hostid", .str hostID),
        ("type", .num 2), ("value_type", .num 3)]

/-! ### Idealized remote server

The remote Zabbix system is the program's environment, not code of this
repository; it is modelled here from the spec's data model (§3, §6):
flat groups/hosts/items identified by server-assigned string identifiers,
with name/key uniqueness enforced by the server. Identifiers are decimal
strings from a fresh counter. Lookups answer only the fields the program
reads. Zabbix's `search` filter is substring-based; on the key sets this
program uses it coincides with exact matching, which is how it is
modelled. -/

structure ZGroup where
  gname : String
  groupid : String
deriving DecidableEq, Repr

structure ZInterface where
  itype : Int
  imain : Int
  useip : Int
  ip : String
  dns : String
  port : String
deriving DecidableEq, Repr

structure ZHost where
  hname : String
  hostid : String
  groupids : List String
  interfaces : List ZInterface
deriving DecidableEq, Repr

structure ZItem where
  iname : String
  key : String
  hostid : String
  itype : Int
  valueType : Int
  delay : String
deriving DecidableEq, Repr

structure ZState where
  groups : List ZGroup
  hosts : List ZHost
  items : List ZItem
  nextId : Nat
deriving DecidableEq, Repr

def ZState.empty : ZState := ⟨[], [], [], 0⟩

/-- One API call as the program issues it: method plus parameter payload. -/
structure ZCall where
  method : String
  params : Json

def Json.asStr : Json → Option String
  | .str s => some s
  | _ => none

def parseStrField (j : Json) (k : String) : Option String :=
  (j.getField k).bind Json.asStr

def parseInterface (j : Json) : Option ZInterface :=
  match j.getField "type", j.getField "main", j.getField "useip",
        j.getField "ip", j.getField "dns", j.getField "port" with
  | some (.num t), some (.num m), some (.num u),
    some (.str ip), some (.str d), some (.str p) => some ⟨t, m, u, ip, d, p⟩
  | _, _, _, _, _, _ => none

def parseInterfaceList : Json → Option (List ZInterface)
  | .arr xs => xs.mapM parseInterface
  | _ => none

def parseGroupRefList : Json → Option (List String)
  | .arr xs => xs.mapM (fun j => parseStrField j "groupid")
  | _ => none

def apiFail (msg : String) : CallErr := .api ⟨-32500, msg, msg⟩

def serveGroupGet (s : ZState) (p : Json) : Except CallErr Json :=
  match (p.getField "filter").bind (fun f => parseStrField f "name") with
  | some n =>
      .ok (.arr ((s.groups.filter (fun g => g.gname == n)).map
        (fun g => .obj [("groupid", .str g.groupid), ("name", .str g.gname)])))
  | none => .error (apiFail "invalid hostgroup.get parameters")

def serveGroupCreate (s : ZState) (p : Json) : ZState × Except CallErr Json :=
  match parseStrField p "name" with
  | some n =>
      if s.groups.any (fun g => g.gname == n) then
        (s, .error (apiFail "host group already exists"))
      else
        let gid := toString s.nextId
        ({ s with groups := s.groups ++ [⟨n, gid⟩], nextId := s.nextId + 1 },
         .ok (.obj [("groupids", .arr [.str gid])]))
  | none => (s, .error (apiFail "invalid hostgroup.create parameters"))

def serveHostGet (s : ZState) (p : Json) : Except CallErr Json :=
  match (p.getField "filter").bind (fun f => parseStrField f "host") with
  | some n =>
      .ok (.arr ((s.hosts.filter (fun h => h.hname == n)).map
        (fun h => .obj [("hostid", .str h.hostid), ("host", .str h.hname)])))
  | none => .error (apiFail "invalid host.get parameters")

def serveHostCreate (s : ZState) (p : Json) : ZState × Except CallErr Json :=
  match parseStrField p "host", (p.getField "interfaces").bind parseInterfaceList,
        (p.getField "groups").bind parseGroupRefList with
  | some n, some ifs, some gids =>
      if s.hosts.any (fun h => h.hname == n) then
        (s, .error (apiFail "host already exists"))
      else if gids.all (fun g => s.groups.any (fun gr => gr.groupid == g)) then
        let hid := toString s.nextId
        ({ s with hosts := s.hosts ++ [⟨n, hid, gids, ifs⟩], nextId := s.nextId + 1 },
         .ok (.obj [("hostids", .arr [.str hid])]))
      else (s, .error (apiFail "host group does not exist"))
  | _, _, _ => (s, .error (apiFail "invalid host.create parameters"))

def serveItemGet (s : ZState) (p : Json) : Except CallErr Json :=
  match parseStrField p "hostids",
        (p.getField "search").bind (fun f => parseStrField f "key_") with
  | some hid, some k =>
      .ok (.arr ((s.items.filter (fun it => it.hostid == hid && it.key == k)).map
        (fun it => .obj [("key_", .str it.key), ("hostid", .str it.hostid)])))
  | _, _ => .error (apiFail "invalid item.get parameters")

def serveItemCreate (s : ZState) (p : Json) : ZState × Except CallErr Json :=
  match parseStrField p "name", parseStrField p "key_", parseStrField p "hostid",
        p.getField "type", p.getField "value_type" with
  | some n, some k, some hid, some (.num t), some (.num vt) =>
      if s.hosts.any (fun h => h.hostid == hid) then
        if s.items.any (fun it => it.hostid == hid && it.key == k) then
          (s, .error (apiFail "item key already exists on host"))
        else
          let iid := toString s.nextId
          ({ s with
              items := s.items ++ [⟨n, k, hid, t, vt, (parseStrField p "delay").getD ""⟩],
              nextId := s.nextId + 1 },
           .ok (.obj [("itemids", .arr [.str iid])]))
      else (s, .error (apiFail "host does not exist"))
  | _, _, _, _, _ => (s, .error (apiFail "invalid item.create parameters"))

/-- The environment answering one API call: either the idealized server or
an arbitrary adversarial network (for the failure-handling proofs). -/
abbrev Oracle (σ : Type) := σ → ZCall → σ × Except CallErr Json

/-- The idealized Zabbix server as an oracle. -/
def serveZ : Oracle ZState := fun s c =>
  if c.method = "hostgroup.get" then (s, serveGroupGet s c.params)
  else if c.method = "hostgroup.create" then serveGroupCreate s c.params
  else if c.method = "host.get" then (s, serveHostGet s c.params)
  else if c.method = "host.create" then serveHostCreate s c.params
  else if c.method = "item.get" then (s, serveItemGet s c.params)
  else if c.method = "item.create" then serveItemCreate s c.params
  else (s, .error (apiFail "unknown method"))

/-! ### Provisioning runners

Each variant's `main` provisioning flow, embedded as explicit state
passing over an oracle. The run state threads the environment plus the
log of every call issued together with its response; a run halts with
`Halt.fatal` where the source calls `log.Fatalf` and with
`Halt.panicked` where an unchecked access would panic. -/

/-- Abrupt termination of the process. -/
inductive Halt where
  | fatal : Halt
  | panicked : Halt
deriving DecidableEq, Repr

structure RunSt (σ : Type) where
  env : σ
  log : List (ZCall × Except CallErr Json)

/-- Issue one API call: query the oracle and append call and response to the log. -/
def issue {σ : Type} (o : Oracle σ) (rs : RunSt σ) (c : ZCall) :
    RunSt σ × Except CallErr Json :=
  match o rs.env c with
  | (e', r) => (⟨e', rs.log ++ [(c, r)]⟩, r)

/-- Step 1 of `part_001`: look up `PerformanceTestGroup`; reuse its id via the
unchecked string assertion if found, else create it and take `groupids[0]`. -/
def ensureGroup {σ : Type} (o : Oracle σ) (rs : RunSt σ) : RunSt σ × Except Halt String :=
  match issue o rs ⟨"hostgroup.get", groupGetParams⟩ with
  | (rs', .error _) => (rs', .error .fatal)
  | (rs', .ok payload) =>
    match goObjList payload with
    | g :: _ =>
      match assertStringField g "groupid" with
      | some gid => (rs', .ok gid)
      | none => (rs', .error .panicked)
    | [] =>
      match issue o rs' ⟨"hostgroup.create", groupCreateParams⟩ with
      | (rs'', .error _) => (rs'', .error .fatal)
      | (rs'', .ok payload') =>
        match extractCreatedId "groupids" payload' with
        | some gid => (rs'', .ok gid)
        | none => (rs'', .error .panicked)

/-- Step 2 body of `part_001`: look up one host by exact name; reuse its id if
found, else create it with one agent interface and take `hostids[0]`. -/
def ensureHost {σ : Type} (o : Oracle σ) (rs : RunSt σ)
    (serverDNS groupID hostName : String) : RunSt σ × Except Halt String :=
  match issue o rs ⟨"host.get", hostGetParams hostName⟩ with
  | (rs', .error _) => (rs', .error .fatal)
  | (rs', .ok payload) =>
    match goObjList payload with
    | h :: _ =>
      match assertStringField h "hostid" with
      | some hid => (rs', .ok hid)
      | none => (rs', .error .panicked)
    | [] =>
      match issue o rs' ⟨"host.create", hostCreateParams hostName serverDNS groupID⟩ with
      | (rs'', .error _) => (rs'', .error .fatal)
      | (rs'', .ok payload') =>
        match extractCreatedId "hostids" payload' with
        | some hid => (rs'', .ok hid)
        | none => (rs'', .error .panicked)

/-- Step 3 body of `part_001`: look up one item by key and host id; create it
as a trapper item when absent (the creation result is not decoded). -/
def ensureItem {σ : Type} (o : Oracle σ) (rs : RunSt σ) (hostID : String) (j : Nat) :
    RunSt σ × Except Halt Unit :=
  match issue o rs ⟨"item.get", itemGetParams hostID (itemKeyStr j)⟩ with
  | (rs', .error _) => (rs', .error .fatal)
  | (rs', .ok payload) =>
    match goObjList payload with
    | [] =>
      match issue o rs' ⟨"item.create", itemCreateParams j hostID⟩ with
      | (rs'', .error _) => (rs'', .error .fatal)
      | (rs'', .ok _) => (rs'', .ok ())
    | _ :: _ => (rs', .ok ())

/-- The `for j := 1; j <= numItems` loop of `part_001`, run from index `j`
with `count` indices remaining. -/
def ensureItemsFrom {σ : Type} (o : Oracle σ) (rs : RunSt σ) (hostID : String) (j : Nat) :
    Nat → RunSt σ × Except Halt Unit
  | 0 => (rs, .ok ())
  | count + 1 =>
    match ensureItem o rs hostID j with
    | (rs', .ok _) => ensureItemsFrom o rs' hostID (j + 1) count
    | (rs', .error h) => (rs', .error h)

/-- The `for i := 1; i <= numHosts` loop of `part_001`, run from index `i`
with `count` indices remaining; `acc` is the `hostNames` slice. -/
def ensureHostsFrom {σ : Type} (o : Oracle σ) (rs : RunSt σ)
    (serverDNS groupID : String) (M : Nat) (acc : List String) (i : Nat) :
    Nat → RunSt σ × Except Halt (List String)
  | 0 => (rs, .ok acc)
  | count + 1 =>
    match ensureHost o rs serverDNS groupID (hostNameStr i) with
    | (rs', .error h) => (rs', .error h)
    | (rs', .ok hostID) =>
      match ensureItemsFrom o rs' hostID 1 M with
      | (rs'', .error h) => (rs'', .error h)
      | (rs'', .ok _) =>
        ensureHostsFrom o rs'' serverDNS groupID M (acc ++ [hostNameStr i]) (i + 1) count

/-- The whole provisioning phase of `part_001` `main`: ensure the group,
then `N` hosts with `M` items each; returns the group id and `hostNames`. -/
def provision1 {σ : Type} (o : Oracle σ) (env : σ) (serverDNS : String) (N M : Nat) :
    RunSt σ × Except Halt (String × List String) :=
  match ensureGroup o ⟨env, []⟩ with
  | (rs, .error h) => (rs, .error h)
  | (rs, .ok gid) =>
    match ensureHostsFrom o rs serverDNS gid M [] 1 N with
    | (rs', .error h) => (rs', .error h)
    | (rs', .ok hostNames) => (rs', .ok (gid, hostNames))

/-- Embeds `createGroup` of `loadTestZabbix.go`: unconditional create, then the
unchecked `parsed.GroupIDs[0]`. -/
def createGroup0 {σ : Type} (o : Oracle σ) (rs : RunSt σ) (name : String) :
    RunSt σ × Except Halt String :=
  match issue o rs ⟨"hostgroup.create", .obj [("name", .str name)]⟩ with
  | (rs', .error _) => (rs', .error .fatal)
  | (rs', .ok payload) =>
    match extractCreatedId "groupids" payload with
    | some gid => (rs', .ok gid)
    | none => (rs', .error .panicked)

/-- Embeds `createHost` of `loadTestZabbix.go`: unconditional create with the
hardcoded `127.0.0.1` interface, then the unchecked `parsed.HostIDs[0]`. -/
def createHost0 {σ : Type} (o : Oracle σ) (rs : RunSt σ) (name groupID : String) :
    RunSt σ × Except Halt String :=
  match issue o rs ⟨"host.create", hostCreateParams0 name groupID⟩ with
  | (rs', .error _) => (rs', .error .fatal)
  | (rs', .ok payload) =>
    match extractCreatedId "hostids" payload with
    | some hid => (rs', .ok hid)
    | none => (rs', .error .panicked)

/-- Embeds `createItem` of `loadTestZabbix.go`: unconditional create, then the
unchecked `parsed.ItemIDs[0]`. -/
def createItem0 {σ : Type} (o : Oracle σ) (rs : RunSt σ) (key hostID : String) :
    RunSt σ × Except Halt String :=
  match issue o rs ⟨"item.create", itemCreateParams0 key hostID⟩ with
  | (rs', .error _) => (rs', .error .fatal)
  | (rs', .ok payload) =>
    match extractCreatedId "itemids" payload with
    | some iid => (rs', .ok iid)
    | none => (rs', .error .panicked)

/-- The `for j := 1; j <= itens` loop of `loadTestZabbix.go` `main`. -/
def createItems0From {σ : Type} (o : Oracle σ) (rs : RunSt σ) (hostID : String) (j : Nat) :
    Nat → RunSt σ × Except Halt Unit
  | 0 => (rs, .ok ())
  | count + 1 =>
    match createItem0 o rs (itemKey0Str j) hostID with
    | (rs', .error h) => (rs', .error h)
    | (rs', .ok _) => createItems0From o rs' hostID (j + 1) count

/-- The `for i := 1; i <= hosts` loop of `loadTestZabbix.go` `main`. -/
def createHosts0From {σ : Type} (o : Oracle σ) (rs : RunSt σ)
    (groupID : String) (M : Nat) (acc : List String) (i : Nat) :
    Nat → RunSt σ × Except Halt (List String)
  | 0 => (rs, .ok acc)
  | count + 1 =>
    match createHost0 o rs (hostName0Str i) groupID with
    | (rs', .error h) => (rs', .error h)
    | (rs', .ok hostID) =>
      match createItems0From o rs' hostID 1 M with
      | (rs'', .error h) => (rs'', .error h)
      | (rs'', .ok _) =>
        createHosts0From o rs'' groupID M (acc ++ [hostName0Str i]) (i + 1) count

/-- The whole provisioning phase of `loadTestZabbix.go` `main`: create the
group unconditionally, then `N` hosts with `M` items each, no lookups. -/
def provision0 {σ : Type} (o : Oracle σ) (env : σ) (N M : Nat) :
    RunSt σ × Except Halt (String × List String) :=
  match createGroup0 o ⟨env, []⟩ groupName0 with
  | (rs, .error h) => (rs, .error h)
  | (rs, .ok gid) =>
    match createHosts0From o rs gid M [] 1 N with
    | (rs', .error h) => (rs', .error h)
    | (rs', .ok hostNames) => (rs', .ok (gid, hostNames))

/-- The three create methods of the provisioning sequence. -/
def isCreateMethod (m : String) : Bool :=
  m = "hostgroup.create" || m = "host.create" || m = "item.create"

/-- The three lookup methods of the provisioning sequence. -/
def isGetMethod (m : String) : Bool :=
  m = "hostgroup.get" || m = "host.get" || m = "item.get"

/-! ### Load generation

`sendValues` of `part_001` (duration-bounded, key `perf.test[1]`, failures
logged and the loop continues) and the unbounded per-host loop of
`loadTestZabbix.go` (exit status discarded). Wall-clock time is abstracted
by the number of loop iterations the `time.Now().Before(endTime)` check
admits, and each sender invocation's success by a boolean function of the
iteration counter. -/

/-- One `zabbix_sender` invocation: `-z` server, `-s` host, `-k` key, `-o` value. -/
structure SenderCmd where
  z : String
  s : String
  k : String
  o : String
deriving DecidableEq, Repr

/-- The loop body of `sendValues` in `part_001`, from counter `sent` with
`t` iterations remaining: build the value from the counter, invoke the
sender with the fixed key `perf.test[1]`, log on failure, increment, loop.
Returns the final counter, the invocations issued, and the error log
lines (each recorded as the affected host name). -/
def sendValuesLoop (serverDNS hostName : String) (fail : Nat → Bool) :
    Nat → Nat → Nat × List SenderCmd × List String
  | sent, 0 => (sent, [], [])
  | sent, t + 1 =>
    let cmd : SenderCmd := ⟨serverDNS, hostName, "perf.test[1]", toString (sent + 1)⟩
    let errs : List String := if fail sent then [hostName] else []
    match sendValuesLoop serverDNS hostName fail (sent + 1) t with
    | (sent', cmds, logs) => (sent', cmd :: cmds, errs ++ logs)

/-- Embeds `sendValues` of `part_001`: the loop started at counter `0`, admitted
`iters` iterations by the wall clock. -/
def sendValues (serverDNS hostName : String) (fail : Nat → Bool) (iters : Nat) :
    Nat × List SenderCmd × List String :=
  sendValuesLoop serverDNS hostName fail 0 iters

/-- Embeds `sendValue` of `loadTestZabbix.go`: one sender invocation whose exit
status `ok` is discarded (`_ = cmd.Run()`); nothing is logged. -/
def sendValue0 (zabbixServer host key value : String) (ok : Bool) : SenderCmd × List String :=
  (⟨zabbixServer, host, key, value⟩, [])

/-- One round of the unbounded per-host loop of `loadTestZabbix.go`:
`sendValue` for keys `loadtest.item.1 .. loadtest.item.itens`, with
per-index values and sender outcomes. -/
def sendRound0 (zabbixServer host : String) (itens : Nat)
    (val : Nat → String) (ok : Nat → Bool) : List SenderCmd × List String :=
  (((List.range itens).map
      (fun d => sendValue0 zabbixServer host (itemKey0Str (1 + d)) (val (1 + d)) (ok (1 + d)))).map
    Prod.fst,
   (((List.range itens).map
      (fun d => sendValue0 zabbixServer host (itemKey0Str (1 + d)) (val (1 + d)) (ok (1 + d)))).map
    Prod.snd).flatten)

/-- Small-step state of a per-host goroutine of `loadTestZabbix.go`:
at the top of its unbounded `for` loop having completed `k` rounds, or
finished (reachable only if the loop could exit). -/
inductive LoopState where
  | looping (roundsDone : Nat) : LoopState
  | finished (roundsDone : Nat) : LoopState
deriving DecidableEq, Repr

/-- One transition of that goroutine: the source's `for { ... }` has no
break, return, or loop condition, so from the loop head the only
transition is to run the body (one round of sends plus the sleep) and
come back to the loop head. -/
def loop0Step : LoopState → LoopState
  | .looping k => .looping (k + 1)
  | .finished k => .finished k

/-- The load phase of `part_001` `main`: one `sendValues` unit per
provisioned host. `wg.Wait()` makes the main flow's return value
available only once every unit has run to completion, modelled by the
main flow returning every unit's completed result. -/
def loadPhase1 (serverDNS : String) (hostNames : List String)
    (fail : String → Nat → Bool) (iters : Nat) :
    List (Nat × List SenderCmd × List String) :=
  hostNames.map (fun h => sendValues serverDNS h (fail h) iters)

/-- Embeds `main` of `part_001`: provisioning, then (only on success) the
per-host load units, then `wg.Wait()`. -/
def main1 {σ : Type} (o : Oracle σ) (env : σ) (serverDNS : String) (N M : Nat)
    (fail : String → Nat → Bool) (iters : Nat) :
    RunSt σ × Except Halt (List (Nat × List SenderCmd × List String)) :=
  match provision1 o env serverDNS N M with
  | (rs, .error h) => (rs, .error h)
  | (rs, .ok res) => (rs, .ok (loadPhase1 serverDNS res.2 fail iters))

/-! ### String helper lemmas -/

theorem string_append_cancel_left (a b c : String) (h : a ++ b = a ++ c) : b = c := by
  have hd := congrArg String.data h
  simp only [String.data_append] at hd
  exact String.ext (List.append_cancel_left hd)

theorem string_append_cancel_right (a b c : String) (h : a ++ c = b ++ c) : a = b := by
  have hd := congrArg String.data h
  simp only [String.data_append] at hd
  exact String.ext (List.append_cancel_right hd)

theorem hostNameStr_injective : Function.Injective hostNameStr := by
  intro i i' h
  exact natToString_injective (string_append_cancel_left "PerfTestHost-" _ _ h)

theorem itemKeyStr_injective : Function.Injective itemKeyStr := by
  intro j j' h
  have h1 := string_append_cancel_left "perf.test[" _ _ h
  exact natToString_injective (string_append_cancel_right _ _ "]" h1)

/-! ### Claim theorems -/

/-- Claim C5: for every endpoint URL, credential, method name, and parameter
payload, the transport client serializes a single envelope
`jsonrpc "2.0" / method / params / id 1` with the credential as a
`Bearer` Authorization header (HTTP variants) or an in-body `auth` field
(curl variant), POSTs it exactly once with no retries, and returns the
raw result payload exactly when the wire produced a decoded envelope with
a null error field; otherwise it fails with the transport, decode, or API
error — never both. -/
theorem c5_transport_contract (url token method : String) (params : Json) (wire : WireOutcome) :
    ((callZabbixAPI url token method params wire).1 =
        [⟨url, "application/json", "Bearer " ++ token, ⟨"2.0", method, params, 1⟩⟩]) ∧
    ((∃ j, (callZabbixAPI url token method params wire).2 = Except.ok j) ↔
        (∃ r, wire = WireOutcome.goodBody r ∧ r.error = none)) ∧
    (∀ m, wire = WireOutcome.netErr m →
        (callZabbixAPI url token method params wire).2 = Except.error (CallErr.transport m)) ∧
    (wire = WireOutcome.badBody →
        (callZabbixAPI url token method params wire).2 = Except.error CallErr.decode) ∧
    (∀ r e, wire = WireOutcome.goodBody r → r.error = some e →
        (callZabbixAPI url token method params wire).2 = Except.error (CallErr.api e)) ∧
    (∀ r, wire = WireOutcome.goodBody r → r.error = none →
        (callZabbixAPI url token method params wire).2 = Except.ok r.result) ∧
    ((callZabbixAPICurl url token method params wire).1 =
        [⟨url, "application/json", ⟨"2.0", method, params, token, 1⟩⟩]) ∧
    (∀ r, wire = WireOutcome.goodBody r → r.error = none →
        (callZabbixAPICurl url token method params wire).2 = some r.result) ∧
    (((callZabbixAPICurl url token method params wire).2).isSome ↔
        ∃ r, wire = WireOutcome.goodBody r ∧ r.error = none) := by
  refine ⟨rfl, ?_, ?_, ?_, ?_, ?_, rfl, ?_, ?_⟩
  · cases wire with
    | netErr m => simp [callZabbixAPI]
    | badBody => simp [callZabbixAPI]
    | goodBody r =>
      cases hr : r.error with
      | none => simp [callZabbixAPI, hr]
      | some e => simp [callZabbixAPI, hr]
  · intro m hm; subst hm; rfl
  · intro hm; subst hm; rfl
  · intro r e hw hr; subst hw; simp [callZabbixAPI, hr]
  · intro r hw hr; subst hw; simp [callZabbixAPI, hr]
  · intro r hw hr; subst hw; simp [callZabbixAPICurl, hr]
  · cases wire with
    | netErr m => simp [callZabbixAPICurl]
    | badBody => simp [callZabbixAPICurl]
    | goodBody r =>
      cases hr : r.error with
      | none => simp [callZabbixAPICurl, hr]
      | some e => simp [callZabbixAPICurl, hr]

/-- Witness for C5 at a concrete input: a network failure is classified as
a transport error. -/
theorem c5_transport_contract_witness :
    (callZabbixAPI "https://z/api_jsonrpc.php" "tok" "host.get" Json.null
        (WireOutcome.netErr "connection refused")).2 =
      Except.error (CallErr.transport "connection refused") :=
  (c5_transport_contract "https://z/api_jsonrpc.php" "tok" "host.get" Json.null
    (WireOutcome.netErr "connection refused")).2.2.1 "connection refused" rfl

/-- Closed form of the `sendValues` loop of `part_001`: from counter
`sent` with `t` admitted iterations it runs all `t` iterations (failures
never break the loop), issues exactly one sender invocation per
iteration with the fixed key `perf.test[1]` and the counter as value
(so no invocation is retried), and logs exactly the failing iterations. -/
theorem sendValuesLoop_spec (dns host : String) (fail : Nat → Bool) :
    ∀ (t sent : Nat),
      sendValuesLoop dns host fail sent t =
        (sent + t,
         (List.range' sent t).map (fun c => ⟨dns, host, "perf.test[1]", toString (c + 1)⟩),
         ((List.range' sent t).filter fail).map (fun _ => host)) := by
  intro t
  induction t with
  | zero => intro sent; simp [sendValuesLoop, List.range']
  | succ t ih =>
    intro sent
    simp only [sendValuesLoop, ih (sent + 1), List.range', Prod.mk.injEq]
    refine ⟨by omega, rfl, ?_⟩
    by_cases hf : fail sent <;> simp [hf, List.filter_cons]

/-- Claim C7: during load generation a sender invocation failure never
aborts the run and is never retried. In the duration-bounded variant
(`part_001`) every admitted iteration issues exactly one invocation
regardless of the failure pattern, the failing iterations are logged and
the loop continues to the full iteration count; in the unbounded variant
(`loadTestZabbix.go`) the round is entirely independent of the sender
exit statuses and nothing is logged. -/
theorem c7_sender_failures_nonfatal (dns host z host0 : String) (fail : Nat → Bool)
    (iters itens : Nat) (val : Nat → String) (ok1 ok2 : Nat → Bool) :
    ((sendValues dns host fail iters).1 = iters) ∧
    ((sendValues dns host fail iters).2.1 =
        (List.range' 0 iters).map (fun c => ⟨dns, host, "perf.test[1]", toString (c + 1)⟩)) ∧
    ((sendValues dns host fail iters).2.1.length = iters) ∧
    ((sendValues dns host fail iters).2.2 =
        ((List.range' 0 iters).filter fail).map (fun _ => host)) ∧
    (sendRound0 z host0 itens val ok1 = sendRound0 z host0 itens val ok2) ∧
    ((sendRound0 z host0 itens val ok1).2 = []) ∧
    ((sendRound0 z host0 itens val ok1).1.length = itens) := by
  have hs := sendValuesLoop_spec dns host fail iters 0
  refine ⟨?_, ?_, ?_, ?_, rfl, ?_, ?_⟩
  · simp [sendValues, hs]
  · simp [sendValues, hs]
  · simp [sendValues, hs]
  · simp [sendValues, hs]
  · simp [sendRound0, sendValue0]
  · simp [sendRound0, sendValue0]

/-- Oracle answering every call successfully with a fixed payload. -/
def constOracle (payload : Json) : Oracle Unit := fun st _ => (st, .ok payload)

/-- Claim C9: the identifier extraction after a successful create is an
unchecked index (`parsed.GroupIDs[0]`) and the identifier read after a
successful lookup is an unchecked type assertion
(`existingGroups[0]["groupid"].(string)`); a successful call whose result
payload decodes to an empty identifier list, or carries a non-string
identifier, makes the run panic rather than fail with the transport or
decode error of the spec's taxonomy. -/
theorem c9_unguarded_access_panics (payload : Json) (g : Int) (dns : String) (N M N' M' : Nat)
    (hempty : goStringListField payload "groupids" = []) :
    ((provision0 (constOracle payload) () N M).2 = Except.error Halt.panicked) ∧
    ((provision1 (constOracle (Json.arr [Json.obj [("groupid", Json.num g)]])) () dns N' M').2 =
        Except.error Halt.panicked) := by
  constructor
  · simp [provision0, createGroup0, issue, constOracle, extractCreatedId, hempty]
  · simp [provision1, ensureGroup, issue, constOracle, goObjList, goPrefixObjs,
      assertStringField, List.lookup]

/-- Witness for C9: a successful create whose result payload is the empty
object (no `groupids` list) panics the curl-variant run. -/
theorem c9_unguarded_access_panics_witness :
    goStringListField (Json.obj []) "groupids" = [] ∧
    (provision0 (constOracle (Json.obj [])) () 1 1).2 = Except.error Halt.panicked :=
  ⟨rfl, (c9_unguarded_access_panics (Json.obj []) 0 "s" 1 1 1 1 rfl).1⟩

/-! ### Rows created by the provisioning sequence, and closed forms -/

/-- The single agent interface of every created host (`part_001`/`part_000`). -/
def agentInterface (serverDNS : String) : ZInterface := ⟨1, 1, 1, serverDNS, "", "10050"⟩

/-- The host row created for index `i` with identifier `hid`. -/
def mkHostRow (serverDNS gid hid : String) (i : Nat) : ZHost :=
  ⟨hostNameStr i, hid, [gid], [agentInterface serverDNS]⟩

/-- The trapper item row created for key index `j` on host `hid`. -/
def mkItemRow (j : Nat) (hid : String) : ZItem :=
  ⟨itemNameStr j, itemKeyStr j, hid, 2, 0, "0"⟩

/-- The items created on one host, key indices `j .. j+count-1`. -/
def hostItems (hid : String) : Nat → Nat → List ZItem
  | _, 0 => []
  | j, count + 1 => mkItemRow j hid :: hostItems hid (j + 1) count

/-- The hosts created for indices `i .. i+count-1`, starting at server
counter `n` (each host consumes one identifier, then `M` item identifiers). -/
def newHosts (serverDNS gid : String) (M : Nat) : Nat → Nat → Nat → List ZHost
  | _, _, 0 => []
  | n, i, count + 1 =>
    mkHostRow serverDNS gid (toString n) i :: newHosts serverDNS gid M (n + (M + 1)) (i + 1) count

/-- The items created for host indices `i .. i+count-1`. -/
def newItems (M : Nat) : Nat → Nat → Nat → List ZItem
  | _, _, 0 => []
  | n, i, count + 1 => hostItems (toString n) 1 M ++ newItems M (n + (M + 1)) (i + 1) count

/-- The `hostNames` slice built for indices `i .. i+count-1`. -/
def newNames : Nat → Nat → List String
  | _, 0 => []
  | i, count + 1 => hostNameStr i :: newNames (i + 1) count

/-! ### Server step lemmas -/

theorem serveZ_groupGet (s : ZState) (p : Json) :
    serveZ s ⟨"hostgroup.get", p⟩ = (s, serveGroupGet s p) := rfl

theorem serveZ_groupCreate (s : ZState) (p : Json) :
    serveZ s ⟨"hostgroup.create", p⟩ = serveGroupCreate s p := rfl

theorem serveZ_hostGet (s : ZState) (p : Json) :
    serveZ s ⟨"host.get", p⟩ = (s, serveHostGet s p) := rfl

theorem serveZ_hostCreate (s : ZState) (p : Json) :
    serveZ s ⟨"host.create", p⟩ = serveHostCreate s p := rfl

theorem serveZ_itemGet (s : ZState) (p : Json) :
    serveZ s ⟨"item.get", p⟩ = (s, serveItemGet s p) := rfl

theorem serveZ_itemCreate (s : ZState) (p : Json) :
    serveZ s ⟨"item.create", p⟩ = serveItemCreate s p := rfl

theorem serveGroupGet_params (s : ZState) :
    serveGroupGet s groupGetParams =
      .ok (.arr ((s.groups.filter (fun g => g.gname == groupName1)).map
        (fun g => .obj [("groupid", .str g.groupid), ("name", .str g.gname)]))) := rfl

theorem serveGroupCreate_params (s : ZState) :
    serveGroupCreate s groupCreateParams =
      (if s.groups.any (fun g => g.gname == groupName1) then
        (s, .error (apiFail "host group already exists"))
      else
        ({ s with groups := s.groups ++ [⟨groupName1, toString s.nextId⟩],
                  nextId := s.nextId + 1 },
         .ok (.obj [("groupids", .arr [.str (toString s.nextId)])]))) := rfl

theorem serveHostGet_params (s : ZState) (name : String) :
    serveHostGet s (hostGetParams name) =
      .ok (.arr ((s.hosts.filter (fun h => h.hname == name)).map
        (fun h => .obj [("hostid", .str h.hostid), ("host", .str h.hname)]))) := rfl

theorem serveHostCreate_params (s : ZState) (name dns gid : String) :
    serveHostCreate s (hostCreateParams name dns gid) =
      (if s.hosts.any (fun h => h.hname == name) then
        (s, .error (apiFail "host already exists"))
      else if [gid].all (fun g => s.groups.any (fun gr => gr.groupid == g)) then
        ({ s with hosts := s.hosts ++ [⟨name, toString s.nextId, [gid], [agentInterface dns]⟩],
                  nextId := s.nextId + 1 },
         .ok (.obj [("hostids", .arr [.str (toString s.nextId)])]))
      else (s, .error (apiFail "host group does not exist"))) := rfl

theorem serveItemGet_params (s : ZState) (hid k : String) :
    serveItemGet s (itemGetParams hid k) =
      .ok (.arr ((s.items.filter (fun it => it.hostid == hid && it.key == k)).map
        (fun it => .obj [("key_", .str it.key), ("hostid", .str it.hostid)]))) := rfl

theorem serveItemCreate_params (s : ZState) (j : Nat) (hid : String) :
    serveItemCreate s (itemCreateParams j hid) =
      (if s.hosts.any (fun h => h.hostid == hid) then
        if s.items.any (fun it => it.hostid == hid && it.key == itemKeyStr j) then
          (s, .error (apiFail "item key already exists on host"))
        else
          ({ s with items := s.items ++ [mkItemRow j hid], nextId := s.nextId + 1 },
           .ok (.obj [("itemids", .arr [.str (toString s.nextId)])]))
      else (s, .error (apiFail "host does not exist"))) := rfl

theorem filter_nil_of_any_false {α : Type} (p : α → Bool) (l : List α)
    (h : l.any p = false) : l.filter p = [] := by
  simp only [List.any_eq_false] at h
  exact List.filter_eq_nil_iff.mpr h

/-! ### One-step characterizations of the `part_001` ensure functions
against the idealized server -/

theorem ensureGroup_found_serveZ (gs : List ZGroup) (hosts : List ZHost) (items : List ZItem)
    (n : Nat) (lg : List (ZCall × Except CallErr Json)) (g0 : ZGroup) (rest : List ZGroup)
    (hf : gs.filter (fun g => g.gname == groupName1) = g0 :: rest) :
    ensureGroup serveZ ⟨⟨gs, hosts, items, n⟩, lg⟩ =
      (⟨⟨gs, hosts, items, n⟩,
        lg ++ [(⟨"hostgroup.get", groupGetParams⟩,
          .ok (.arr ((g0 :: rest).map
            (fun g => .obj [("groupid", .str g.groupid), ("name", .str g.gname)]))))]⟩,
       .ok g0.groupid) := by
  simp [ensureGroup, issue, serveZ_groupGet, serveGroupGet_params, hf,
    goObjList, goPrefixObjs, assertStringField, List.lookup]

theorem ensureGroup_creates_serveZ (gs : List ZGroup) (hosts : List ZHost) (items : List ZItem)
    (n : Nat) (lg : List (ZCall × Except CallErr Json))
    (hno : gs.any (fun g => g.gname == groupName1) = false) :
    ensureGroup serveZ ⟨⟨gs, hosts, items, n⟩, lg⟩ =
      (⟨⟨gs ++ [⟨groupName1, toString n⟩], hosts, items, n + 1⟩,
        lg ++ [(⟨"hostgroup.get", groupGetParams⟩, .ok (.arr [])),
               (⟨"hostgroup.create", groupCreateParams⟩,
                .ok (.obj [("groupids", .arr [.str (toString n)])]))]⟩,
       .ok (toString n)) := by
  have hf := filter_nil_of_any_false _ _ hno
  simp [ensureGroup, issue, serveZ_groupGet, serveGroupGet_params, hf,
    serveZ_groupCreate, serveGroupCreate_params, hno,
    goObjList, goPrefixObjs, extractCreatedId, goStringListField, Json.getField,
    goStringList, goPrefixStrings, List.lookup]

theorem ensureHost_found_serveZ (gs : List ZGroup) (hosts : List ZHost) (items : List ZItem)
    (n : Nat) (lg : List (ZCall × Except CallErr Json)) (dns gid name : String)
    (h0 : ZHost) (rest : List ZHost)
    (hf : hosts.filter (fun h => h.hname == name) = h0 :: rest) :
    ensureHost serveZ ⟨⟨gs, hosts, items, n⟩, lg⟩ dns gid name =
      (⟨⟨gs, hosts, items, n⟩,
        lg ++ [(⟨"host.get", hostGetParams name⟩,
          .ok (.arr ((h0 :: rest).map
            (fun h => .obj [("hostid", .str h.hostid), ("host", .str h.hname)]))))]⟩,
       .ok h0.hostid) := by
  simp [ensureHost, issue, serveZ_hostGet, serveHostGet_params, hf,
    goObjList, goPrefixObjs, assertStringField, List.lookup]

theorem ensureHost_creates_serveZ (gs : List ZGroup) (hosts : List ZHost) (items : List ZItem)
    (n : Nat) (lg : List (ZCall × Except CallErr Json)) (dns gid name : String)
    (hno : hosts.any (fun h => h.hname == name) = false)
    (hg : gs.any (fun gr => gr.groupid == gid) = true) :
    ensureHost serveZ ⟨⟨gs, hosts, items, n⟩, lg⟩ dns gid name =
      (⟨⟨gs, hosts ++ [⟨name, toString n, [gid], [agentInterface dns]⟩], items, n + 1⟩,
        lg ++ [(⟨"host.get", hostGetParams name⟩, .ok (.arr [])),
               (⟨"host.create", hostCreateParams name dns gid⟩,
                .ok (.obj [("hostids", .arr [.str (toString n)])]))]⟩,
       .ok (toString n)) := by
  have hf := filter_nil_of_any_false _ _ hno
  simp [ensureHost, issue, serveZ_hostGet, serveHostGet_params, hf,
    serveZ_hostCreate, serveHostCreate_params, hno, hg,
    goObjList, goPrefixObjs, extractCreatedId, goStringListField, Json.getField,
    goStringList, goPrefixStrings, List.lookup]

theorem ensureItem_found_serveZ (gs : List ZGroup) (hosts : List ZHost) (items : List ZItem)
    (n : Nat) (lg : List (ZCall × Except CallErr Json)) (hid : String) (j : Nat)
    (it0 : ZItem) (rest : List ZItem)
    (hf : items.filter (fun it => it.hostid == hid && it.key == itemKeyStr j) = it0 :: rest) :
    ensureItem serveZ ⟨⟨gs, hosts, items, n⟩, lg⟩ hid j =
      (⟨⟨gs, hosts, items, n⟩,
        lg ++ [(⟨"item.get", itemGetParams hid (itemKeyStr j)⟩,
          .ok (.arr ((it0 :: rest).map
            (fun it => .obj [("key_", .str it.key), ("hostid", .str it.hostid)]))))]⟩,
       .ok ()) := by
  simp [ensureItem, issue, serveZ_itemGet, serveItemGet_params, hf,
    goObjList, goPrefixObjs]

theorem ensureItem_creates_serveZ (gs : List ZGroup) (hosts : List ZHost) (items : List ZItem)
    (n : Nat) (lg : List (ZCall × Except CallErr Json)) (hid : String) (j : Nat)
    (hno : items.any (fun it => it.hostid == hid && it.key == itemKeyStr j) = false)
    (hh : hosts.any (fun h => h.hostid == hid) = true) :
    ensureItem serveZ ⟨⟨gs, hosts, items, n⟩, lg⟩ hid j =
      (⟨⟨gs, hosts, items ++ [mkItemRow j hid], n + 1⟩,
        lg ++ [(⟨"item.get", itemGetParams hid (itemKeyStr j)⟩, .ok (.arr [])),
               (⟨"item.create", itemCreateParams j hid⟩,
                .ok (.obj [("itemids", .arr [.str (toString n)])]))]⟩,
       .ok ()) := by
  have hf := filter_nil_of_any_false _ _ hno
  simp [ensureItem, issue, serveZ_itemGet, serveItemGet_params, hf,
    serveZ_itemCreate, serveItemCreate_params, hno, hh,
    goObjList, goPrefixObjs]

/-! ### Loop characterizations for a creation run -/

/-- Running the item loop of `part_001` against the idealized server from a
state where the target host exists and none of the target keys exist on it:
all `count` items are created in order and nothing else changes. -/
theorem ensureItemsFrom_creates_serveZ :
    ∀ (count j : Nat) (gs : List ZGroup) (hosts : List ZHost) (items : List ZItem)
      (n : Nat) (lg : List (ZCall × Except CallErr Json)) (hid : String),
      hosts.any (fun h => h.hostid == hid) = true →
      (∀ d, d < count →
        items.any (fun it => it.hostid == hid && it.key == itemKeyStr (j + d)) = false) →
      ∃ Δ, ensureItemsFrom serveZ ⟨⟨gs, hosts, items, n⟩, lg⟩ hid j count =
          (⟨⟨gs, hosts, items ++ hostItems hid j count, n + count⟩, lg ++ Δ⟩, Except.ok ()) ∧
        ∀ p ∈ Δ, p.1.method = "item.get" ∨ p.1.method = "item.create" := by
  intro count
  induction count with
  | zero =>
    intro j gs hosts items n lg hid hh hFresh
    exact ⟨[], by simp [ensureItemsFrom, hostItems], by simp⟩
  | succ count ih =>
    intro j gs hosts items n lg hid hh hFresh
    have h0 : items.any (fun it => it.hostid == hid && it.key == itemKeyStr j) = false := by
      have := hFresh 0 (by omega)
      simpa using this
    have hstep := ensureItem_creates_serveZ gs hosts items n lg hid j h0 hh
    have hfresh' : ∀ d, d < count →
        (items ++ [mkItemRow j hid]).any
          (fun it => it.hostid == hid && it.key == itemKeyStr (j + 1 + d)) = false := by
      intro d hd
      have ha := hFresh (d + 1) (by omega)
      have harg : j + (d + 1) = j + 1 + d := by omega
      rw [harg] at ha
      have hkey : (itemKeyStr j == itemKeyStr (j + 1 + d)) = false := by
        simp only [beq_eq_false_iff_ne]
        intro he
        have := itemKeyStr_injective he
        omega
      simp [List.any_append, ha, mkItemRow, hkey]
    obtain ⟨Δ', hΔ', hm'⟩ := ih (j + 1) gs hosts (items ++ [mkItemRow j hid]) (n + 1)
      (lg ++ [(⟨"item.get", itemGetParams hid (itemKeyStr j)⟩, .ok (.arr [])),
              (⟨"item.create", itemCreateParams j hid⟩,
               .ok (.obj [("itemids", .arr [.str (toString n)])]))]) hid hh hfresh'
    refine ⟨[(⟨"item.get", itemGetParams hid (itemKeyStr j)⟩, .ok (.arr [])),
             (⟨"item.create", itemCreateParams j hid⟩,
              .ok (.obj [("itemids", .arr [.str (toString n)])]))] ++ Δ', ?_, ?_⟩
    · simp only [ensureItemsFrom, hstep, hΔ']
      have hn : n + 1 + count = n + (count + 1) := by omega
      simp [hostItems, List.append_assoc, hn]
    · intro p hp
      rcases List.mem_append.mp hp with h | h
      · simp only [List.mem_cons, List.not_mem_nil, or_false] at h
        rcases h with h | h
        · subst h; simp
        · subst h; simp
      · exact hm' p h

theorem hostItems_hostid (hid : String) :
    ∀ (count j : Nat), ∀ it ∈ hostItems hid j count, it.hostid = hid := by
  intro count
  induction count with
  | zero => intro j it hit; simp [hostItems] at hit
  | succ count ih =>
    intro j it hit
    simp only [hostItems, List.mem_cons] at hit
    rcases hit with h | h
    · subst h; rfl
    · exact ih (j + 1) it h

/-- Running the host loop of `part_001` against the idealized server from a
state where the group exists, none of the target host names exist, and all
existing items belong to already-assigned identifiers: all `count` hosts
and their items are created in order, and no group create is issued. -/
theorem ensureHostsFrom_creates_serveZ :
    ∀ (count i : Nat) (gs : List ZGroup) (hosts : List ZHost) (items : List ZItem)
      (n : Nat) (lg : List (ZCall × Except CallErr Json)) (dns gid : String)
      (M : Nat) (acc : List String),
      gs.any (fun gr => gr.groupid == gid) = true →
      (∀ d, d < count → hosts.any (fun h => h.hname == hostNameStr (i + d)) = false) →
      (∀ it ∈ items, ∃ k, k < n ∧ it.hostid = toString k) →
      ∃ Δ, ensureHostsFrom serveZ ⟨⟨gs, hosts, items, n⟩, lg⟩ dns gid M acc i count =
          (⟨⟨gs, hosts ++ newHosts dns gid M n i count, items ++ newItems M n i count,
             n + count * (M + 1)⟩, lg ++ Δ⟩,
           Except.ok (acc ++ newNames i count)) ∧
        ∀ p ∈ Δ, p.1.method ≠ "hostgroup.create" := by
  intro count
  induction count with
  | zero =>
    intro i gs hosts items n lg dns gid M acc hGrp hNames hItems
    exact ⟨[], by simp [ensureHostsFrom, newHosts, newItems, newNames], by simp⟩
  | succ count ih =>
    intro i gs hosts items n lg dns gid M acc hGrp hNames hItems
    have hno : hosts.any (fun h => h.hname == hostNameStr i) = false := by
      have := hNames 0 (by omega)
      simpa using this
    have hstep := ensureHost_creates_serveZ gs hosts items n lg dns gid (hostNameStr i) hno hGrp
    set row : ZHost := ⟨hostNameStr i, toString n, [gid], [agentInterface dns]⟩ with hrow
    set lgE : List (ZCall × Except CallErr Json) :=
      [(⟨"host.get", hostGetParams (hostNameStr i)⟩, .ok (.arr [])),
       (⟨"host.create", hostCreateParams (hostNameStr i) dns gid⟩,
        .ok (.obj [("hostids", .arr [.str (toString n)])]))] with hlgE
    have hh : (hosts ++ [row]).any (fun h => h.hostid == toString n) = true := by
      simp [List.any_append, hrow]
    have hifresh : ∀ d, d < M →
        items.any (fun it => it.hostid == toString n && it.key == itemKeyStr (1 + d)) = false := by
      intro d hd
      apply List.any_eq_false.mpr
      intro it hit
      obtain ⟨k, hk, he⟩ := hItems it hit
      have hne : (it.hostid == toString n) = false := by
        simp only [beq_eq_false_iff_ne, he]
        intro hcontra
        have := natToString_injective hcontra
        omega
      simp [hne]
    obtain ⟨Δi, hΔi, hmi⟩ := ensureItemsFrom_creates_serveZ M 1 gs (hosts ++ [row]) items
      (n + 1) (lg ++ lgE) (toString n) hh hifresh
    have hNames' : ∀ d, d < count →
        (hosts ++ [row]).any (fun h => h.hname == hostNameStr (i + 1 + d)) = false := by
      intro d hd
      have ha := hNames (d + 1) (by omega)
      have harg : i + (d + 1) = i + 1 + d := by omega
      rw [harg] at ha
      have hne : (hostNameStr i == hostNameStr (i + 1 + d)) = false := by
        simp only [beq_eq_false_iff_ne]
        intro he
        have := hostNameStr_injective he
        omega
      simp [List.any_append, ha, hrow, hne]
    have hItems' : ∀ it ∈ items ++ hostItems (toString n) 1 M,
        ∃ k, k < n + 1 + M ∧ it.hostid = toString k := by
      intro it hit
      rcases List.mem_append.mp hit with h | h
      · obtain ⟨k, hk, he⟩ := hItems it h
        exact ⟨k, by omega, he⟩
      · exact ⟨n, by omega, hostItems_hostid (toString n) M 1 it h⟩
    obtain ⟨Δ', hΔ', hm'⟩ := ih (i + 1) gs (hosts ++ [row]) (items ++ hostItems (toString n) 1 M)
      (n + 1 + M) ((lg ++ lgE) ++ Δi) dns gid M (acc ++ [hostNameStr i]) hGrp hNames' hItems'
    refine ⟨lgE ++ Δi ++ Δ', ?_, ?_⟩
    · have hn1 : n + 1 + M = n + (M + 1) := by omega
      have hn2 : n + 1 + M + count * (M + 1) = n + (count + 1) * (M + 1) := by
        have : (count + 1) * (M + 1) = count * (M + 1) + (M + 1) := by ring
        omega
      simp only [ensureHostsFrom, hstep, hΔi, hΔ']
      rw [hn1] at hΔ' ⊢
      simp [newHosts, newItems, newNames, mkHostRow, List.append_assoc, hn2, hrow, ← hn1]
    · intro p hp
      simp only [List.append_assoc, List.mem_append] at hp
      rcases hp with h | h | h
      · simp only [hlgE, List.mem_cons, List.not_mem_nil, or_false] at h
        rcases h with h | h
        · subst h; simp
        · subst h; simp
      · have := hmi p h
        rcases this with h' | h' <;> simp [h']
      · exact hm' p h

/-! ### Structural facts about the created rows -/

theorem newNames_eq_range : ∀ (count i : Nat),
    newNames i count = (List.range' i count).map hostNameStr := by
  intro count
  induction count with
  | zero => intro i; simp [newNames, List.range']
  | succ count ih => intro i; simp [newNames, List.range', ih (i + 1)]

theorem newHosts_length (dns gid : String) (M : Nat) :
    ∀ (count n i : Nat), (newHosts dns gid M n i count).length = count := by
  intro count
  induction count with
  | zero => intro n i; simp [newHosts]
  | succ count ih => intro n i; simp [newHosts, ih]

theorem newHosts_map_hname (dns gid : String) (M : Nat) :
    ∀ (count n i : Nat), (newHosts dns gid M n i count).map ZHost.hname = newNames i count := by
  intro count
  induction count with
  | zero => intro n i; simp [newHosts, newNames]
  | succ count ih => intro n i; simp [newHosts, newNames, mkHostRow, ih]

theorem newHosts_rows (dns gid : String) (M : Nat) :
    ∀ (count n i : Nat), ∀ h ∈ newHosts dns gid M n i count,
      h.groupids = [gid] ∧ h.interfaces = [agentInterface dns] := by
  intro count
  induction count with
  | zero => intro n i h hh; simp [newHosts] at hh
  | succ count ih =>
    intro n i h hh
    simp only [newHosts, List.mem_cons] at hh
    rcases hh with hh | hh
    · subst hh; exact ⟨rfl, rfl⟩
    · exact ih (n + (M + 1)) (i + 1) h hh

theorem hostItems_length (hid : String) :
    ∀ (count j : Nat), (hostItems hid j count).length = count := by
  intro count
  induction count with
  | zero => intro j; simp [hostItems]
  | succ count ih => intro j; simp [hostItems, ih]

theorem hostItems_keys (hid : String) :
    ∀ (count j : Nat), (hostItems hid j count).map ZItem.key = (List.range' j count).map itemKeyStr := by
  intro count
  induction count with
  | zero => intro j; simp [hostItems, List.range']
  | succ count ih => intro j; simp [hostItems, List.range', mkItemRow, ih]

theorem hostItems_mem (hid : String) :
    ∀ (count j : Nat), ∀ it ∈ hostItems hid j count, ∃ d, d < count ∧ it = mkItemRow (j + d) hid := by
  intro count
  induction count with
  | zero => intro j it hit; simp [hostItems] at hit
  | succ count ih =>
    intro j it hit
    simp only [hostItems, List.mem_cons] at hit
    rcases hit with h | h
    · exact ⟨0, by omega, by simpa using h⟩
    · obtain ⟨d, hd, he⟩ := ih (j + 1) it h
      exact ⟨d + 1, by omega, by rw [he]; congr 1; omega⟩

/-- The created items are exactly, per created host, the `M` trapper rows
for that host's identifier. -/
theorem newItems_blocks (dns gid : String) (M : Nat) :
    ∀ (count n i : Nat),
      newItems M n i count =
        ((newHosts dns gid M n i count).map (fun h => hostItems h.hostid 1 M)).flatten := by
  intro count
  induction count with
  | zero => intro n i; simp [newItems, newHosts]
  | succ count ih => intro n i; simp [newItems, newHosts, mkHostRow, ih]

theorem newItems_length (M : Nat) :
    ∀ (count n i : Nat), (newItems M n i count).length = count * M := by
  intro count
  induction count with
  | zero => intro n i; simp [newItems]
  | succ count ih =>
    intro n i
    simp [newItems, hostItems_length, ih]
    ring

theorem newItems_trapper (M : Nat) :
    ∀ (count n i : Nat), ∀ it ∈ newItems M n i count, it.itype = 2 ∧ it.valueType = 0 := by
  intro count
  induction count with
  | zero => intro n i it hit; simp [newItems] at hit
  | succ count ih =>
    intro n i it hit
    simp only [newItems, List.mem_append] at hit
    rcases hit with h | h
    · obtain ⟨d, _, he⟩ := hostItems_mem (toString n) M 1 it h
      subst he; exact ⟨rfl, rfl⟩
    · exact ih (n + (M + 1)) (i + 1) it h

/-- Claim C2: a successful provisioning run of the lookup-before-create
variant against an empty remote state, for requested counts `N ≥ 1` and
`M ≥ 1`, creates exactly one group named `PerformanceTestGroup`, exactly
`N` hosts named `PerfTestHost-1 .. PerfTestHost-N`, and per host exactly
the `M` trapper items keyed `perf.test[1] .. perf.test[M]` — and nothing
else: the final remote state is exactly these rows. -/
theorem c2_empty_state_exact (dns : String) (N M : Nat) (hN : 1 ≤ N) (hM : 1 ≤ M) :
    ∃ Δ, provision1 serveZ ZState.empty dns N M =
        (⟨⟨[⟨groupName1, "0"⟩], newHosts dns "0" M 1 1 N, newItems M 1 1 N,
           1 + N * (M + 1)⟩, Δ⟩,
         Except.ok ("0", newNames 1 N)) ∧
      (newHosts dns "0" M 1 1 N).length = N ∧
      (newHosts dns "0" M 1 1 N).map ZHost.hname = (List.range' 1 N).map hostNameStr ∧
      (newItems M 1 1 N).length = N * M ∧
      newItems M 1 1 N =
        ((newHosts dns "0" M 1 1 N).map (fun h => hostItems h.hostid 1 M)).flatten ∧
      (∀ hid, (hostItems hid 1 M).map ZItem.key = (List.range' 1 M).map itemKeyStr) ∧
      (∀ it ∈ newItems M 1 1 N, it.itype = 2 ∧ it.valueType = 0) := by
  have hgrp := ensureGroup_creates_serveZ [] [] [] 0 [] (by simp)
  have hzero : (toString 0 : String) = "0" := rfl
  obtain ⟨Δh, hΔh, _⟩ := ensureHostsFrom_creates_serveZ N 1 [⟨groupName1, "0"⟩] [] [] 1
    [(⟨"hostgroup.get", groupGetParams⟩, .ok (.arr [])),
     (⟨"hostgroup.create", groupCreateParams⟩,
      .ok (.obj [("groupids", .arr [.str "0"])]))]
    dns "0" M [] (by simp) (by simp) (by simp)
  refine ⟨[(⟨"hostgroup.get", groupGetParams⟩, .ok (.arr [])),
           (⟨"hostgroup.create", groupCreateParams⟩,
            .ok (.obj [("groupids", .arr [.str "0"])]))] ++ Δh,
    ?_, newHosts_length dns "0" M N 1 1, ?_, newItems_length M N 1 1,
    newItems_blocks dns "0" M N 1 1, fun hid => hostItems_keys hid M 1,
    newItems_trapper M N 1 1⟩
  · rw [hzero] at hgrp
    simp only [List.nil_append, Nat.zero_add] at hgrp
    simp only [provision1, ZState.empty, hgrp, hΔh]
    simp
  · rw [← newNames_eq_range]
    exact newHosts_map_hname dns "0" M N 1 1

/-- Witness for C2 at the spec's example: `N = 2`, `M = 3`. -/
theorem c2_empty_state_exact_witness :
    ∃ Δ, provision1 serveZ ZState.empty "127.0.0.1" 2 3 =
        (⟨⟨[⟨groupName1, "0"⟩], newHosts "127.0.0.1" "0" 3 1 1 2, newItems 3 1 1 2,
           1 + 2 * (3 + 1)⟩, Δ⟩,
         Except.ok ("0", newNames 1 2)) := by
  obtain ⟨Δ, h1, _⟩ := c2_empty_state_exact "127.0.0.1" 2 3 (by omega) (by omega)
  exact ⟨Δ, h1⟩

/-- Claim C4: against a remote state where `PerformanceTestGroup` already
exists (with any identifier `gid`, any server counter) and no hosts or
items exist, the lookup-before-create run reuses `gid`, issues no
`hostgroup.create` call, and still creates all `N` requested hosts, each
attached to `gid`. -/
theorem c4_group_reuse (dns gid : String) (n0 N M : Nat) (hN : 1 ≤ N) (hM : 1 ≤ M) :
    ∃ Δ, provision1 serveZ ⟨[⟨groupName1, gid⟩], [], [], n0⟩ dns N M =
        (⟨⟨[⟨groupName1, gid⟩], newHosts dns gid M n0 1 N, newItems M n0 1 N,
           n0 + N * (M + 1)⟩, Δ⟩,
         Except.ok (gid, newNames 1 N)) ∧
      (∀ p ∈ Δ, p.1.method ≠ "hostgroup.create") ∧
      (newHosts dns gid M n0 1 N).length = N ∧
      (∀ h ∈ newHosts dns gid M n0 1 N, h.groupids = [gid]) := by
  have hfilter : ([⟨groupName1, gid⟩] : List ZGroup).filter (fun g => g.gname == groupName1)
      = [⟨groupName1, gid⟩] := by simp
  have hgrp := ensureGroup_found_serveZ [⟨groupName1, gid⟩] [] [] n0 [] ⟨groupName1, gid⟩ [] hfilter
  simp only [List.map_cons, List.map_nil, List.nil_append] at hgrp
  obtain ⟨Δh, hΔh, hmh⟩ := ensureHostsFrom_creates_serveZ N 1 [⟨groupName1, gid⟩] [] [] n0
    [(⟨"hostgroup.get", groupGetParams⟩,
      .ok (.arr [.obj [("groupid", .str gid), ("name", .str groupName1)]]))]
    dns gid M [] (by simp) (by simp) (by simp)
  refine ⟨[(⟨"hostgroup.get", groupGetParams⟩,
      .ok (.arr [.obj [("groupid", .str gid), ("name", .str groupName1)]]))] ++ Δh,
    ?_, ?_, newHosts_length dns gid M N n0 1,
    fun h hh => (newHosts_rows dns gid M N n0 1 h hh).1⟩
  · simp only [provision1, hgrp, hΔh]
    simp
  · intro p hp
    rcases List.mem_append.mp hp with h | h
    · simp only [List.mem_cons, List.not_mem_nil, or_false] at h
      subst h; simp
    · exact hmh p h

/-- Witness for C4 at a concrete input: group present with identifier
`"g7"`, two hosts requested. -/
theorem c4_group_reuse_witness :
    ∃ Δ, provision1 serveZ ⟨[⟨groupName1, "g7"⟩], [], [], 41⟩ "10.0.0.2" 2 1 =
        (⟨⟨[⟨groupName1, "g7"⟩], newHosts "10.0.0.2" "g7" 1 41 1 2, newItems 1 41 1 2,
           41 + 2 * (1 + 1)⟩, Δ⟩,
         Except.ok ("g7", newNames 1 2)) ∧
      (∀ p ∈ Δ, p.1.method ≠ "hostgroup.create") := by
  obtain ⟨Δ, h1, h2, _⟩ := c4_group_reuse "10.0.0.2" "g7" 41 2 1 (by omega) (by omega)
  exact ⟨Δ, h1, h2⟩

/-! ### The idempotent second run of `part_001` -/

theorem filter_cons_of_mem {α : Type} (p : α → Bool) (l : List α) (x : α)
    (hx : x ∈ l) (hp : p x = true) : ∃ y rest, l.filter p = y :: rest := by
  cases hf : l.filter p with
  | nil =>
    exfalso
    have := List.mem_filter.mpr ⟨hx, hp⟩
    rw [hf] at this
    exact List.not_mem_nil x this
  | cons y rest => exact ⟨y, rest, rfl⟩

/-- Running the item loop when every target key already exists on the host:
only `item.get` calls are issued and the state is unchanged. -/
theorem ensureItemsFrom_found_serveZ :
    ∀ (count j : Nat) (gs : List ZGroup) (hosts : List ZHost) (items : List ZItem)
      (n : Nat) (lg : List (ZCall × Except CallErr Json)) (hid : String),
      (∀ d, d < count → ∃ it0 rest,
        items.filter (fun it => it.hostid == hid && it.key == itemKeyStr (j + d)) = it0 :: rest) →
      ∃ Δ, ensureItemsFrom serveZ ⟨⟨gs, hosts, items, n⟩, lg⟩ hid j count =
          (⟨⟨gs, hosts, items, n⟩, lg ++ Δ⟩, Except.ok ()) ∧
        ∀ p ∈ Δ, p.1.method = "item.get" := by
  intro count
  induction count with
  | zero =>
    intro j gs hosts items n lg hid hFound
    exact ⟨[], by simp [ensureItemsFrom], by simp⟩
  | succ count ih =>
    intro j gs hosts items n lg hid hFound
    have h00 := hFound 0 (by omega)
    rw [Nat.add_zero] at h00
    obtain ⟨it0, rest, hf⟩ := h00
    have hstep := ensureItem_found_serveZ gs hosts items n lg hid j it0 rest hf
    have hshift : ∀ d, d < count → ∃ it0' rest',
        items.filter (fun it => it.hostid == hid && it.key == itemKeyStr (j + 1 + d)) =
          it0' :: rest' := by
      intro d hd
      have := hFound (d + 1) (by omega)
      have harg : j + (d + 1) = j + 1 + d := by omega
      rwa [harg] at this
    obtain ⟨Δ', hΔ', hm'⟩ := ih (j + 1) gs hosts items n
      (lg ++ [(⟨"item.get", itemGetParams hid (itemKeyStr j)⟩,
        .ok (.arr ((it0 :: rest).map
          (fun it => .obj [("key_", .str it.key), ("hostid", .str it.hostid)]))))]) hid hshift
    refine ⟨[(⟨"item.get", itemGetParams hid (itemKeyStr j)⟩,
      .ok (.arr ((it0 :: rest).map
        (fun it => .obj [("key_", .str it.key), ("hostid", .str it.hostid)]))))] ++ Δ',
      ?_, ?_⟩
    · simp only [ensureItemsFrom, hstep, hΔ']
      simp
    · intro p hp
      rcases List.mem_append.mp hp with h | h
      · simp only [List.mem_cons, List.not_mem_nil, or_false] at h
        subst h; rfl
      · exact hm' p h

/-- Running the host loop when every target host (and every target item on
it) already exists: only lookups are issued and the state is unchanged. -/
theorem ensureHostsFrom_found_serveZ :
    ∀ (count i : Nat) (gs : List ZGroup) (hosts : List ZHost) (items : List ZItem)
      (n : Nat) (lg : List (ZCall × Except CallErr Json)) (dns gid : String)
      (M : Nat) (acc : List String),
      (∀ d, d < count → ∃ h0 rest,
        hosts.filter (fun h => h.hname == hostNameStr (i + d)) = h0 :: rest ∧
        (∀ e, e < M → ∃ it0 irest,
          items.filter (fun it => it.hostid == h0.hostid && it.key == itemKeyStr (1 + e)) =
            it0 :: irest)) →
      ∃ Δ, ensureHostsFrom serveZ ⟨⟨gs, hosts, items, n⟩, lg⟩ dns gid M acc i count =
          (⟨⟨gs, hosts, items, n⟩, lg ++ Δ⟩, Except.ok (acc ++ newNames i count)) ∧
        ∀ p ∈ Δ, isGetMethod p.1.method = true := by
  intro count
  induction count with
  | zero =>
    intro i gs hosts items n lg dns gid M acc hFound
    exact ⟨[], by simp [ensureHostsFrom, newNames], by simp⟩
  | succ count ih =>
    intro i gs hosts items n lg dns gid M acc hFound
    have h00 := hFound 0 (by omega)
    rw [Nat.add_zero] at h00
    obtain ⟨h0, rest, hf, hitems⟩ := h00
    have hstep := ensureHost_found_serveZ gs hosts items n lg dns gid (hostNameStr i) h0 rest hf
    have hshift : ∀ d, d < count → ∃ h0' rest',
        hosts.filter (fun h => h.hname == hostNameStr (i + 1 + d)) = h0' :: rest' ∧
        (∀ e, e < M → ∃ it0 irest,
          items.filter (fun it => it.hostid == h0'.hostid && it.key == itemKeyStr (1 + e)) =
            it0 :: irest) := by
      intro d hd
      have := hFound (d + 1) (by omega)
      have harg : i + (d + 1) = i + 1 + d := by omega
      rwa [harg] at this
    obtain ⟨Δi, hΔi, hmi⟩ := ensureItemsFrom_found_serveZ M 1 gs hosts items n
      (lg ++ [(⟨"host.get", hostGetParams (hostNameStr i)⟩,
        .ok (.arr ((h0 :: rest).map
          (fun h => .obj [("hostid", .str h.hostid), ("host", .str h.hname)]))))])
      h0.hostid hitems
    obtain ⟨Δ', hΔ', hm'⟩ := ih (i + 1) gs hosts items n
      ((lg ++ [(⟨"host.get", hostGetParams (hostNameStr i)⟩,
        .ok (.arr ((h0 :: rest).map
          (fun h => .obj [("hostid", .str h.hostid), ("host", .str h.hname)]))))]) ++ Δi)
      dns gid M (acc ++ [hostNameStr i]) hshift
    refine ⟨[(⟨"host.get", hostGetParams (hostNameStr i)⟩,
      .ok (.arr ((h0 :: rest).map
        (fun h => .obj [("hostid", .str h.hostid), ("host", .str h.hname)]))))] ++ Δi ++ Δ',
      ?_, ?_⟩
    · simp only [ensureHostsFrom, hstep, hΔi, hΔ']
      simp [newNames, List.append_assoc]
    · intro p hp
      simp only [List.append_assoc, List.mem_append] at hp
      rcases hp with h | h | h
      · simp only [List.mem_cons, List.not_mem_nil, or_false] at h
        subst h; rfl
      · rw [hmi p h]; rfl
      · exact hm' p h

theorem newHosts_mem (dns gid : String) (M : Nat) :
    ∀ (count n i : Nat), ∀ h ∈ newHosts dns gid M n i count,
      ∃ d, d < count ∧ h = mkHostRow dns gid (toString (n + d * (M + 1))) (i + d) := by
  intro count
  induction count with
  | zero => intro n i h hh; simp [newHosts] at hh
  | succ count ih =>
    intro n i h hh
    simp only [newHosts, List.mem_cons] at hh
    rcases hh with hh | hh
    · exact ⟨0, by omega, by simpa using hh⟩
    · obtain ⟨d, hd, he⟩ := ih (n + (M + 1)) (i + 1) h hh
      refine ⟨d + 1, by omega, ?_⟩
      have harith : n + (M + 1) + d * (M + 1) = n + (d + 1) * (M + 1) := by ring
      rw [he, harith]
      congr 1
      omega

theorem newHosts_filter_name (dns gid : String) (M : Nat) :
    ∀ (count n i d : Nat), d < count →
      (newHosts dns gid M n i count).filter (fun h => h.hname == hostNameStr (i + d)) =
        [mkHostRow dns gid (toString (n + d * (M + 1))) (i + d)] := by
  intro count
  induction count with
  | zero => intro n i d hd; omega
  | succ count ih =>
    intro n i d hd
    cases d with
    | zero =>
      rw [Nat.add_zero]
      have htail : (newHosts dns gid M (n + (M + 1)) (i + 1) count).filter
          (fun h => h.hname == hostNameStr i) = [] := by
        apply List.filter_eq_nil_iff.mpr
        intro h hh
        obtain ⟨d', hd', he⟩ := newHosts_mem dns gid M count (n + (M + 1)) (i + 1) h hh
        subst he
        simp only [mkHostRow, beq_iff_eq]
        intro hcontra
        have := hostNameStr_injective hcontra
        omega
      simp [newHosts, List.filter_cons, mkHostRow, htail]
    | succ d' =>
      have hhead : ((mkHostRow dns gid (toString n) i).hname == hostNameStr (i + (d' + 1))) =
          false := by
        simp only [mkHostRow, beq_eq_false_iff_ne]
        intro hcontra
        have := hostNameStr_injective hcontra
        omega
      have ihx := ih (n + (M + 1)) (i + 1) d' (by omega)
      have harg : i + 1 + d' = i + (d' + 1) := by omega
      rw [harg] at ihx
      have harith : n + (M + 1) + d' * (M + 1) = n + (d' + 1) * (M + 1) := by ring
      rw [harith] at ihx
      simp [newHosts, List.filter_cons, hhead, ihx]

theorem hostItems_mem_row (hid : String) :
    ∀ (count j dd : Nat), dd < count → mkItemRow (j + dd) hid ∈ hostItems hid j count := by
  intro count
  induction count with
  | zero => intro j dd h; omega
  | succ count ih =>
    intro j dd h
    cases dd with
    | zero =>
      rw [Nat.add_zero]
      simp only [hostItems, List.mem_cons]
      exact Or.inl rfl
    | succ dd' =>
      have hx := ih (j + 1) dd' (by omega)
      have harg : j + 1 + dd' = j + (dd' + 1) := by omega
      rw [harg] at hx
      simp only [hostItems, List.mem_cons]
      exact Or.inr hx

theorem newItems_mem_row (M : Nat) :
    ∀ (count n i d e : Nat), d < count → e < M →
      mkItemRow (1 + e) (toString (n + d * (M + 1))) ∈ newItems M n i count := by
  intro count
  induction count with
  | zero => intro n i d e hd he; omega
  | succ count ih =>
    intro n i d e hd he
    cases d with
    | zero =>
      simp only [newItems, List.mem_append]
      left
      rw [show n + 0 * (M + 1) = n by ring]
      exact hostItems_mem_row (toString n) M 1 e he
    | succ d' =>
      simp only [newItems, List.mem_append]
      right
      have harith : n + (d' + 1) * (M + 1) = n + (M + 1) + d' * (M + 1) := by ring
      rw [harith]
      exact ih (n + (M + 1)) (i + 1) d' e (by omega) he

theorem isCreate_false_of_isGet (m : String) (h : isGetMethod m = true) :
    isCreateMethod m = false := by
  simp only [isGetMethod, Bool.or_eq_true, decide_eq_true_eq] at h
  rcases h with (h | h) | h <;> subst h <;> rfl

/-- The remote state after a successful `part_001` run from the empty state. -/
def c2State (dns : String) (N M : Nat) : ZState :=
  ⟨[⟨groupName1, "0"⟩], newHosts dns "0" M 1 1 N, newItems M 1 1 N, 1 + N * (M + 1)⟩

/-- Claim C1, amended: in the lookup-before-create variant (`part_001`), a
second provisioning run against the state produced by a first run performs
a lookup for every entity, finds each one, issues only lookup calls (no
create of any kind), and leaves the remote state exactly unchanged: no
duplicate group, host, or item is created. (The curl-based and `part_000`
variants issue creates unconditionally without lookups; see the
counterexample.) -/
theorem c1_amended_idempotent (dns : String) (N M : Nat) :
    ∃ Δ, provision1 serveZ (c2State dns N M) dns N M =
        (⟨c2State dns N M, Δ⟩, Except.ok ("0", newNames 1 N)) ∧
      (∀ p ∈ Δ, isGetMethod p.1.method = true) ∧
      (∀ p ∈ Δ, isCreateMethod p.1.method = false) := by
  have hfilter : ([⟨groupName1, "0"⟩] : List ZGroup).filter (fun g => g.gname == groupName1)
      = [⟨groupName1, "0"⟩] := by simp
  have hgrp := ensureGroup_found_serveZ [⟨groupName1, "0"⟩] (newHosts dns "0" M 1 1 N)
    (newItems M 1 1 N) (1 + N * (M + 1)) [] ⟨groupName1, "0"⟩ [] hfilter
  simp only [List.map_cons, List.map_nil, List.nil_append] at hgrp
  have hFound : ∀ d, d < N → ∃ h0 rest,
      (newHosts dns "0" M 1 1 N).filter (fun h => h.hname == hostNameStr (1 + d)) =
        h0 :: rest ∧
      (∀ e, e < M → ∃ it0 irest,
        (newItems M 1 1 N).filter
          (fun it => it.hostid == h0.hostid && it.key == itemKeyStr (1 + e)) =
          it0 :: irest) := by
    intro d hd
    refine ⟨mkHostRow dns "0" (toString (1 + d * (M + 1))) (1 + d), [],
      newHosts_filter_name dns "0" M N 1 1 d hd, ?_⟩
    intro e he
    apply filter_cons_of_mem _ _ (mkItemRow (1 + e) (toString (1 + d * (M + 1))))
    · exact newItems_mem_row M N 1 1 d e hd he
    · simp [mkItemRow, mkHostRow]
  obtain ⟨Δh, hΔh, hmh⟩ := ensureHostsFrom_found_serveZ N 1 [⟨groupName1, "0"⟩]
    (newHosts dns "0" M 1 1 N) (newItems M 1 1 N) (1 + N * (M + 1))
    [(⟨"hostgroup.get", groupGetParams⟩,
      .ok (.arr [.obj [("groupid", .str "0"), ("name", .str groupName1)]]))]
    dns "0" M [] hFound
  refine ⟨[(⟨"hostgroup.get", groupGetParams⟩,
      .ok (.arr [.obj [("groupid", .str "0"), ("name", .str groupName1)]]))] ++ Δh,
    ?_, ?_, ?_⟩
  · simp only [c2State, provision1, hgrp, hΔh]
    simp
  · intro p hp
    rcases List.mem_append.mp hp with h | h
    · simp only [List.mem_cons, List.not_mem_nil, or_false] at h
      subst h; rfl
    · exact hmh p h
  · intro p hp
    rcases List.mem_append.mp hp with h | h
    · simp only [List.mem_cons, List.not_mem_nil, or_false] at h
      subst h; rfl
    · exact isCreate_false_of_isGet _ (hmh p h)

/-- Witness for the amended C1 at a concrete input. -/
theorem c1_amended_idempotent_witness :
    ∃ Δ, provision1 serveZ (c2State "127.0.0.1" 1 1) "127.0.0.1" 1 1 =
        (⟨c2State "127.0.0.1" 1 1, Δ⟩, Except.ok ("0", newNames 1 1)) ∧
      (∀ p ∈ Δ, isGetMethod p.1.method = true) := by
  obtain ⟨Δ, h1, h2, _⟩ := c1_amended_idempotent "127.0.0.1" 1 1
  exact ⟨Δ, h1, h2⟩

/-- Claim C1, counterexample: the claim fails on the curl-based variant
(`loadTestZabbix.go`): after a first run from the empty state has created
`LoadTestGroup`, re-running that variant's provisioning issues
`hostgroup.create` as its very first call, with no lookup anywhere in its
log — a create call is issued for an entity already present, refuting
"performs a lookup before any create". (The run then aborts on the
server's duplicate-name error.) -/
theorem c1_counterexample :
    ((provision0 serveZ ZState.empty 1 1).1.env.groups = [⟨groupName0, "0"⟩]) ∧
    (((provision0 serveZ (provision0 serveZ ZState.empty 1 1).1.env 1 1).1.log.map
        (fun p => p.1.method)) = ["hostgroup.create"]) ∧
    (∀ p ∈ (provision0 serveZ (provision0 serveZ ZState.empty 1 1).1.env 1 1).1.log,
        isGetMethod p.1.method = false) ∧
    ((provision0 serveZ (provision0 serveZ ZState.empty 1 1).1.env 1 1).2 =
        Except.error Halt.fatal) := by
  refine ⟨rfl, rfl, ?_, rfl⟩
  intro p hp
  have hm : p.1.method ∈
      ((provision0 serveZ (provision0 serveZ ZState.empty 1 1).1.env 1 1).1.log.map
        (fun q => q.1.method)) :=
    List.mem_map_of_mem _ hp
  have he : ((provision0 serveZ (provision0 serveZ ZState.empty 1 1).1.env 1 1).1.log.map
      (fun q => q.1.method)) = ["hostgroup.create"] := rfl
  rw [he] at hm
  simp only [List.mem_cons, List.not_mem_nil, or_false] at hm
  rw [hm]
  rfl

/-- Claim C6, amended: every host that requires creation is created with
exactly one network interface on the fixed agent port `"10050"` and is
attached to the provisioned group; in the bearer-token variants
(`part_000`/`part_001`) the interface address is the caller-supplied
server address, while the curl variant (`loadTestZabbix.go`) hardcodes
the loopback address `127.0.0.1`. -/
theorem c6_amended (name dns gid : String) (M n i count : Nat) :
    (((hostCreateParams name dns gid).getField "interfaces").bind parseInterfaceList =
      some [agentInterface dns]) ∧
    (((hostCreateParams name dns gid).getField "groups").bind parseGroupRefList =
      some [gid]) ∧
    ((agentInterface dns).ip = dns) ∧
    ((agentInterface dns).port = "10050") ∧
    (∀ h ∈ newHosts dns gid M n i count,
      h.interfaces = [agentInterface dns] ∧ h.groupids = [gid]) ∧
    (((hostCreateParams0 name gid).getField "interfaces").bind parseInterfaceList =
      some [⟨1, 1, 1, "127.0.0.1", "", "10050"⟩]) := by
  refine ⟨rfl, rfl, rfl, rfl, ?_, rfl⟩
  intro h hh
  have := newHosts_rows dns gid M count n i h hh
  exact ⟨this.2, this.1⟩

/-- Witness for the amended C6 at a concrete created host. -/
theorem c6_amended_witness :
    (mkHostRow "10.0.0.5" "g" (toString 5) 1).interfaces = [agentInterface "10.0.0.5"] ∧
    (mkHostRow "10.0.0.5" "g" (toString 5) 1).groupids = ["g"] :=
  (c6_amended "h" "10.0.0.5" "g" 1 5 1 1).2.2.2.2.1 _ (by simp [newHosts])

/-- Claim C6, counterexample: in the curl variant the created host's single
interface carries the fixed address `127.0.0.1` regardless of the
caller-supplied server address (which that variant's provisioning never
receives), refuting "whose address is the caller-supplied server
address" — e.g. with server address `10.0.0.5`. -/
theorem c6_counterexample :
    ((provision0 serveZ ZState.empty 1 1).1.env.hosts.map ZHost.interfaces =
      [[⟨1, 1, 1, "127.0.0.1", "", "10050"⟩]]) ∧
    ("127.0.0.1" ≠ "10.0.0.5") := by
  exact ⟨rfl, by decide⟩

/-- Claim C10: in the duration-bounded load variant every value sent by
every per-host unit uses the single key `perf.test[1]`, regardless of the
requested items-per-host count `M`; yet for every `2 ≤ j ≤ M` an item
keyed `perf.test[j]` is provisioned (on every host, for any `N ≥ 1`) and
that key never occurs among the sent keys. -/
theorem c10_single_key_load (dns host : String) (fail : Nat → Bool) (iters : Nat)
    (N M j : Nat) (hN : 1 ≤ N) (h2 : 2 ≤ j) (hjM : j ≤ M) :
    (∀ c ∈ (sendValues dns host fail iters).2.1, c.k = "perf.test[1]") ∧
    ("perf.test[1]" = itemKeyStr 1) ∧
    (∃ it ∈ newItems M 1 1 N, it.key = itemKeyStr j) ∧
    (itemKeyStr j ∉ (sendValues dns host fail iters).2.1.map SenderCmd.k) := by
  have hs := sendValuesLoop_spec dns host fail iters 0
  have hall : ∀ c ∈ (sendValues dns host fail iters).2.1, c.k = "perf.test[1]" := by
    intro c hc
    rw [sendValues, hs] at hc
    simp only [List.mem_map] at hc
    obtain ⟨d, _, he⟩ := hc
    rw [← he]
  refine ⟨hall, rfl, ?_, ?_⟩
  · refine ⟨mkItemRow (1 + (j - 1)) (toString (1 + 0 * (M + 1))), ?_, ?_⟩
    · exact newItems_mem_row M N 1 1 0 (j - 1) (by omega) (by omega)
    · simp only [mkItemRow]
      congr 1
      omega
  · intro hmem
    simp only [List.mem_map] at hmem
    obtain ⟨c, hc, he⟩ := hmem
    have := hall c hc
    have h1 : itemKeyStr 1 = itemKeyStr j := by
      rw [← he]
      show itemKeyStr 1 = c.k
      rw [this]
      rfl
    have := itemKeyStr_injective h1
    omega

/-- Witness for C10 at a concrete input: `N = 1`, `M = 2`, `j = 2`. -/
theorem c10_single_key_load_witness :
    (∃ it ∈ newItems 2 1 1 1, it.key = itemKeyStr 2) ∧
    (itemKeyStr 2 ∉ (sendValues "z" "h" (fun _ => false) 3).2.1.map SenderCmd.k) := by
  obtain ⟨_, _, h3, h4⟩ :=
    c10_single_key_load "z" "h" (fun _ => false) 3 1 2 2 (by omega) (by omega) (by omega)
  exact ⟨h3, h4⟩

/-- Claim C8: per-host load units exist only after provisioning succeeds —
the main flow's units are exactly one `sendValues` run per provisioned
host name, and a provisioning halt yields no units at all; in the
duration-bounded variant the main flow's return value contains every
unit's completed run (each having consumed its full iteration budget,
the modelled meaning of `wg.Wait()`); in the unbounded variant the
per-host loop is, after any number `n` of steps, still at its loop head
(it never reaches a finished state, so the main flow's join never
completes). -/
theorem c8_scheduling {σ : Type} (o : Oracle σ) (env : σ) (dns : String) (N M : Nat)
    (fail : String → Nat → Bool) (iters : Nat) :
    (∀ h, (provision1 o env dns N M).2 = Except.error h →
      (main1 o env dns N M fail iters).2 = Except.error h) ∧
    (∀ gid hostNames, (provision1 o env dns N M).2 = Except.ok (gid, hostNames) →
      (main1 o env dns N M fail iters).2 =
        Except.ok (hostNames.map (fun hn => sendValues dns hn (fail hn) iters)) ∧
      (hostNames.map (fun hn => sendValues dns hn (fail hn) iters)).length =
        hostNames.length) ∧
    (∀ results, (main1 o env dns N M fail iters).2 = Except.ok results →
      ∀ r ∈ results, r.1 = iters) ∧
    (∀ n : Nat, loop0Step^[n] (LoopState.looping 0) = LoopState.looping n) := by
  rcases hP : provision1 o env dns N M with ⟨rs, out⟩
  refine ⟨?_, ?_, ?_, ?_⟩
  · intro h hout
    simp only at hout
    subst hout
    simp [main1, hP]
  · intro gid hostNames hout
    simp only at hout
    subst hout
    simp [main1, hP, loadPhase1]
  · intro results hres r hr
    cases out with
    | error h => simp [main1, hP] at hres
    | ok res =>
      simp only [main1, hP, loadPhase1] at hres
      cases hres
      simp only [List.mem_map] at hr
      obtain ⟨hn, _, he⟩ := hr
      rw [← he, sendValues, sendValuesLoop_spec]
      simp
  · intro n
    induction n with
    | zero => rfl
    | succ n ih => rw [Function.iterate_succ_apply', ih]; rfl

/-- Witness for C8 at a concrete input: a transport failure on the very
first call yields a halt and hence no load units. -/
theorem c8_scheduling_witness :
    (main1 (fun (st : Unit) _ => (st, Except.error (CallErr.transport "down")))
      () "z" 1 1 (fun _ _ => false) 2).2 = Except.error Halt.fatal := by
  have h := (c8_scheduling (fun (st : Unit) _ => (st, Except.error (CallErr.transport "down")))
    () "z" 1 1 (fun _ _ => false) 2).1 Halt.fatal
  exact h rfl

/-! ### Failure handling: logs stop at the first failing call, and the
server state only ever grows -/

/-- Every logged call received a successful response. -/
def allOk (Δ : List (ZCall × Except CallErr Json)) : Prop :=
  ∀ p ∈ Δ, ∃ j, p.2 = Except.ok j

/-- The log is a run of successful calls followed by exactly one failing
call — nothing is issued after the failure. -/
def failShape (Δ : List (ZCall × Except CallErr Json)) : Prop :=
  ∃ Δ₀ c e, Δ = Δ₀ ++ [(c, Except.error e)] ∧ allOk Δ₀

/-- Whether an outcome is the `log.Fatalf` halt. -/
def isFatal {β : Type} : Except Halt β → Bool
  | .error .fatal => true
  | _ => false

/-- Whether a halt is the `log.Fatalf` one. -/
def haltFatal : Halt → Bool
  | .fatal => true
  | .panicked => false

theorem isFatal_error {β : Type} (h : Halt) :
    isFatal (Except.error h : Except Halt β) = haltFatal h := by
  cases h <;> rfl

/-- The log of a run that halts at its first failure: a fatal run's log
ends at the single failing call, any other run's log is all-successful. -/
def cleanLog (Δ : List (ZCall × Except CallErr Json)) (fatal : Bool) : Prop :=
  if fatal then failShape Δ else allOk Δ

theorem allOk_nil : allOk [] := fun p hp => absurd hp (List.not_mem_nil p)

theorem allOk_append {Δ₁ Δ₂ : List (ZCall × Except CallErr Json)}
    (h1 : allOk Δ₁) (h2 : allOk Δ₂) : allOk (Δ₁ ++ Δ₂) := by
  intro p hp
  rcases List.mem_append.mp hp with h | h
  · exact h1 p h
  · exact h2 p h

theorem cleanLog_append {Δ₁ Δ₂ : List (ZCall × Except CallErr Json)} {f : Bool}
    (h1 : allOk Δ₁) (h2 : cleanLog Δ₂ f) : cleanLog (Δ₁ ++ Δ₂) f := by
  cases f
  · exact allOk_append h1 h2
  · obtain ⟨Δ₀, c, e, he, hok⟩ := h2
    exact ⟨Δ₁ ++ Δ₀, c, e, by rw [he, List.append_assoc], allOk_append h1 hok⟩

theorem allOk_single_ok (c : ZCall) (j : Json) : allOk [(c, Except.ok j)] := by
  intro p hp
  simp only [List.mem_cons, List.not_mem_nil, or_false] at hp
  subst hp
  exact ⟨j, rfl⟩

theorem allOk_pair_ok (c₁ c₂ : ZCall) (j₁ j₂ : Json) :
    allOk [(c₁, Except.ok j₁), (c₂, Except.ok j₂)] := by
  intro p hp
  simp only [List.mem_cons, List.not_mem_nil, or_false] at hp
  rcases hp with h | h
  · subst h; exact ⟨j₁, rfl⟩
  · subst h; exact ⟨j₂, rfl⟩

theorem cleanLog_err_single (c : ZCall) (e : CallErr) :
    cleanLog [(c, Except.error e)] true :=
  ⟨[], c, e, rfl, allOk_nil⟩

theorem cleanLog_ok_then_err (c₁ : ZCall) (j₁ : Json) (c₂ : ZCall) (e : CallErr) :
    cleanLog [(c₁, Except.ok j₁), (c₂, Except.error e)] true :=
  ⟨[(c₁, Except.ok j₁)], c₂, e, rfl, allOk_single_ok c₁ j₁⟩

/-- The final server state extends the initial one: nothing is ever
removed (no rollback; already-created objects stay in place). -/
def ZExtends (s s' : ZState) : Prop :=
  s.groups <+: s'.groups ∧ s.hosts <+: s'.hosts ∧ s.items <+: s'.items

theorem zext_refl (s : ZState) : ZExtends s s :=
  ⟨List.prefix_rfl, List.prefix_rfl, List.prefix_rfl⟩

theorem zext_trans {a b c : ZState} (h1 : ZExtends a b) (h2 : ZExtends b c) : ZExtends a c :=
  ⟨h1.1.trans h2.1, h1.2.1.trans h2.2.1, h1.2.2.trans h2.2.2⟩

theorem serveGroupCreate_extends (s : ZState) (p : Json) :
    ZExtends s (serveGroupCreate s p).1 := by
  unfold serveGroupCreate
  split
  · split_ifs
    · exact zext_refl s
    · exact ⟨List.prefix_append _ _, List.prefix_rfl, List.prefix_rfl⟩
  · exact zext_refl s

theorem serveHostCreate_extends (s : ZState) (p : Json) :
    ZExtends s (serveHostCreate s p).1 := by
  unfold serveHostCreate
  split
  · split_ifs
    · exact zext_refl s
    · exact ⟨List.prefix_rfl, List.prefix_append _ _, List.prefix_rfl⟩
    · exact zext_refl s
  · exact zext_refl s

theorem serveItemCreate_extends (s : ZState) (p : Json) :
    ZExtends s (serveItemCreate s p).1 := by
  unfold serveItemCreate
  split
  · split_ifs
    · exact zext_refl s
    · exact ⟨List.prefix_rfl, List.prefix_rfl, List.prefix_append _ _⟩
    · exact zext_refl s
  · exact zext_refl s

theorem serveZ_extends (s : ZState) (c : ZCall) : ZExtends s (serveZ s c).1 := by
  unfold serveZ
  split_ifs
  · exact zext_refl s
  · exact serveGroupCreate_extends s c.params
  · exact zext_refl s
  · exact serveHostCreate_extends s c.params
  · exact zext_refl s
  · exact serveItemCreate_extends s c.params
  · exact zext_refl s

/-- The states an execution can move the environment through: zero or
more oracle steps. -/
inductive OracleChain {σ : Type} (o : Oracle σ) : σ → σ → Prop where
  | refl (s : σ) : OracleChain o s s
  | step (s : σ) (c : ZCall) (s' : σ) :
      OracleChain o (o s c).1 s' → OracleChain o s s'

theorem OracleChain.trans {σ : Type} {o : Oracle σ} {a b c : σ}
    (h1 : OracleChain o a b) (h2 : OracleChain o b c) : OracleChain o a c := by
  induction h1 with
  | refl s => exact h2
  | step s cc s' _ ih => exact .step s cc c (ih h2)

theorem OracleChain.one {σ : Type} (o : Oracle σ) (s : σ) (c : ZCall) :
    OracleChain o s (o s c).1 :=
  .step s c (o s c).1 (.refl (o s c).1)

/-- Along any chain of idealized-server steps the state only grows. -/
theorem chain_extends {s s' : ZState} (h : OracleChain serveZ s s') : ZExtends s s' := by
  induction h with
  | refl s => exact zext_refl s
  | step s c s' _ ih => exact zext_trans (serveZ_extends s c) ih

theorem ensureGroup_clean {σ : Type} (o : Oracle σ) (rs : RunSt σ) :
    ∃ Δ, (ensureGroup o rs).1.log = rs.log ++ Δ ∧
      cleanLog Δ (isFatal (ensureGroup o rs).2) ∧
      OracleChain o rs.env (ensureGroup o rs).1.env := by
  rcases h1 : o rs.env ⟨"hostgroup.get", groupGetParams⟩ with ⟨e1, r1⟩
  have hc1 : OracleChain o rs.env e1 := by
    have := OracleChain.one o rs.env ⟨"hostgroup.get", groupGetParams⟩
    rwa [h1] at this
  cases r1 with
  | error err =>
    have hE : ensureGroup o rs =
        (⟨e1, rs.log ++ [(⟨"hostgroup.get", groupGetParams⟩, Except.error err)]⟩,
         Except.error Halt.fatal) := by
      simp [ensureGroup, issue, h1]
    rw [hE]
    exact ⟨[(⟨"hostgroup.get", groupGetParams⟩, Except.error err)], rfl,
      cleanLog_err_single _ err, hc1⟩
  | ok payload =>
    cases hg : goObjList payload with
    | cons g grest =>
      cases ha : assertStringField g "groupid" with
      | some gid =>
        have hE : ensureGroup o rs =
            (⟨e1, rs.log ++ [(⟨"hostgroup.get", groupGetParams⟩, Except.ok payload)]⟩,
             Except.ok gid) := by
          simp [ensureGroup, issue, h1, hg, ha]
        rw [hE]
        exact ⟨[(⟨"hostgroup.get", groupGetParams⟩, Except.ok payload)], rfl,
          allOk_single_ok _ payload, hc1⟩
      | none =>
        have hE : ensureGroup o rs =
            (⟨e1, rs.log ++ [(⟨"hostgroup.get", groupGetParams⟩, Except.ok payload)]⟩,
             Except.error Halt.panicked) := by
          simp [ensureGroup, issue, h1, hg, ha]
        rw [hE]
        exact ⟨[(⟨"hostgroup.get", groupGetParams⟩, Except.ok payload)], rfl,
          allOk_single_ok _ payload, hc1⟩
    | nil =>
      rcases h2 : o e1 ⟨"hostgroup.create", groupCreateParams⟩ with ⟨e2, r2⟩
      have hc2 : OracleChain o rs.env e2 := by
        refine hc1.trans ?_
        have := OracleChain.one o e1 ⟨"hostgroup.create", groupCreateParams⟩
        rwa [h2] at this
      cases r2 with
      | error err =>
        have hE : ensureGroup o rs =
            (⟨e2, rs.log ++ [(⟨"hostgroup.get", groupGetParams⟩, Except.ok payload),
                (⟨"hostgroup.create", groupCreateParams⟩, Except.error err)]⟩,
             Except.error Halt.fatal) := by
          simp [ensureGroup, issue, h1, hg, h2]
        rw [hE]
        exact ⟨[(⟨"hostgroup.get", groupGetParams⟩, Except.ok payload),
            (⟨"hostgroup.create", groupCreateParams⟩, Except.error err)], rfl,
          cleanLog_ok_then_err _ payload _ err, hc2⟩
      | ok payload2 =>
        cases he : extractCreatedId "groupids" payload2 with
        | some gid =>
          have hE : ensureGroup o rs =
              (⟨e2, rs.log ++ [(⟨"hostgroup.get", groupGetParams⟩, Except.ok payload),
                  (⟨"hostgroup.create", groupCreateParams⟩, Except.ok payload2)]⟩,
               Except.ok gid) := by
            simp [ensureGroup, issue, h1, hg, h2, he]
          rw [hE]
          exact ⟨[(⟨"hostgroup.get", groupGetParams⟩, Except.ok payload),
              (⟨"hostgroup.create", groupCreateParams⟩, Except.ok payload2)], rfl,
            allOk_pair_ok _ _ payload payload2, hc2⟩
        | none =>
          have hE : ensureGroup o rs =
              (⟨e2, rs.log ++ [(⟨"hostgroup.get", groupGetParams⟩, Except.ok payload),
                  (⟨"hostgroup.create", groupCreateParams⟩, Except.ok payload2)]⟩,
               Except.error Halt.panicked) := by
            simp [ensureGroup, issue, h1, hg, h2, he]
          rw [hE]
          exact ⟨[(⟨"hostgroup.get", groupGetParams⟩, Except.ok payload),
              (⟨"hostgroup.create", groupCreateParams⟩, Except.ok payload2)], rfl,
            allOk_pair_ok _ _ payload payload2, hc2⟩

theorem ensureHost_clean {σ : Type} (o : Oracle σ) (rs : RunSt σ) (dns gid name : String) :
    ∃ Δ, (ensureHost o rs dns gid name).1.log = rs.log ++ Δ ∧
      cleanLog Δ (isFatal (ensureHost o rs dns gid name).2) ∧
      OracleChain o rs.env (ensureHost o rs dns gid name).1.env := by
  rcases h1 : o rs.env ⟨"host.get", hostGetParams name⟩ with ⟨e1, r1⟩
  have hc1 : OracleChain o rs.env e1 := by
    have := OracleChain.one o rs.env ⟨"host.get", hostGetParams name⟩
    rwa [h1] at this
  cases r1 with
  | error err =>
    have hE : ensureHost o rs dns gid name =
        (⟨e1, rs.log ++ [(⟨"host.get", hostGetParams name⟩, Except.error err)]⟩,
         Except.error Halt.fatal) := by
      simp [ensureHost, issue, h1]
    rw [hE]
    exact ⟨[(⟨"host.get", hostGetParams name⟩, Except.error err)], rfl,
      cleanLog_err_single _ err, hc1⟩
  | ok payload =>
    cases hg : goObjList payload with
    | cons g grest =>
      cases ha : assertStringField g "hostid" with
      | some hid =>
        have hE : ensureHost o rs dns gid name =
            (⟨e1, rs.log ++ [(⟨"host.get", hostGetParams name⟩, Except.ok payload)]⟩,
             Except.ok hid) := by
          simp [ensureHost, issue, h1, hg, ha]
        rw [hE]
        exact ⟨[(⟨"host.get", hostGetParams name⟩, Except.ok payload)], rfl,
          allOk_single_ok _ payload, hc1⟩
      | none =>
        have hE : ensureHost o rs dns gid name =
            (⟨e1, rs.log ++ [(⟨"host.get", hostGetParams name⟩, Except.ok payload)]⟩,
             Except.error Halt.panicked) := by
          simp [ensureHost, issue, h1, hg, ha]
        rw [hE]
        exact ⟨[(⟨"host.get", hostGetParams name⟩, Except.ok payload)], rfl,
          allOk_single_ok _ payload, hc1⟩
    | nil =>
      rcases h2 : o e1 ⟨"host.create", hostCreateParams name dns gid⟩ with ⟨e2, r2⟩
      have hc2 : OracleChain o rs.env e2 := by
        refine hc1.trans ?_
        have := OracleChain.one o e1 ⟨"host.create", hostCreateParams name dns gid⟩
        rwa [h2] at this
      cases r2 with
      | error err =>
        have hE : ensureHost o rs dns gid name =
            (⟨e2, rs.log ++ [(⟨"host.get", hostGetParams name⟩, Except.ok payload),
                (⟨"host.create", hostCreateParams name dns gid⟩, Except.error err)]⟩,
             Except.error Halt.fatal) := by
          simp [ensureHost, issue, h1, hg, h2]
        rw [hE]
        exact ⟨[(⟨"host.get", hostGetParams name⟩, Except.ok payload),
            (⟨"host.create", hostCreateParams name dns gid⟩, Except.error err)], rfl,
          cleanLog_ok_then_err _ payload _ err, hc2⟩
      | ok payload2 =>
        cases he : extractCreatedId "hostids" payload2 with
        | some hid =>
          have hE : ensureHost o rs dns gid name =
              (⟨e2, rs.log ++ [(⟨"host.get", hostGetParams name⟩, Except.ok payload),
                  (⟨"host.create", hostCreateParams name dns gid⟩, Except.ok payload2)]⟩,
               Except.ok hid) := by
            simp [ensureHost, issue, h1, hg, h2, he]
          rw [hE]
          exact ⟨[(⟨"host.get", hostGetParams name⟩, Except.ok payload),
              (⟨"host.create", hostCreateParams name dns gid⟩, Except.ok payload2)], rfl,
            allOk_pair_ok _ _ payload payload2, hc2⟩
        | none =>
          have hE : ensureHost o rs dns gid name =
              (⟨e2, rs.log ++ [(⟨"host.get", hostGetParams name⟩, Except.ok payload),
                  (⟨"host.create", hostCreateParams name dns gid⟩, Except.ok payload2)]⟩,
               Except.error Halt.panicked) := by
            simp [ensureHost, issue, h1, hg, h2, he]
          rw [hE]
          exact ⟨[(⟨"host.get", hostGetParams name⟩, Except.ok payload),
              (⟨"host.create", hostCreateParams name dns gid⟩, Except.ok payload2)], rfl,
            allOk_pair_ok _ _ payload payload2, hc2⟩

theorem ensureItem_clean {σ : Type} (o : Oracle σ) (rs : RunSt σ) (hid : String) (j : Nat) :
    ∃ Δ, (ensureItem o rs hid j).1.log = rs.log ++ Δ ∧
      cleanLog Δ (isFatal (ensureItem o rs hid j).2) ∧
      OracleChain o rs.env (ensureItem o rs hid j).1.env := by
  rcases h1 : o rs.env ⟨"item.get", itemGetParams hid (itemKeyStr j)⟩ with ⟨e1, r1⟩
  have hc1 : OracleChain o rs.env e1 := by
    have := OracleChain.one o rs.env ⟨"item.get", itemGetParams hid (itemKeyStr j)⟩
    rwa [h1] at this
  cases r1 with
  | error err =>
    have hE : ensureItem o rs hid j =
        (⟨e1, rs.log ++ [(⟨"item.get", itemGetParams hid (itemKeyStr j)⟩, Except.error err)]⟩,
         Except.error Halt.fatal) := by
      simp [ensureItem, issue, h1]
    rw [hE]
    exact ⟨[(⟨"item.get", itemGetParams hid (itemKeyStr j)⟩, Except.error err)], rfl,
      cleanLog_err_single _ err, hc1⟩
  | ok payload =>
    cases hg : goObjList payload with
    | cons g grest =>
      have hE : ensureItem o rs hid j =
          (⟨e1, rs.log ++ [(⟨"item.get", itemGetParams hid (itemKeyStr j)⟩, Except.ok payload)]⟩,
           Except.ok ()) := by
        simp [ensureItem, issue, h1, hg]
      rw [hE]
      exact ⟨[(⟨"item.get", itemGetParams hid (itemKeyStr j)⟩, Except.ok payload)], rfl,
        allOk_single_ok _ payload, hc1⟩
    | nil =>
      rcases h2 : o e1 ⟨"item.create", itemCreateParams j hid⟩ with ⟨e2, r2⟩
      have hc2 : OracleChain o rs.env e2 := by
        refine hc1.trans ?_
        have := OracleChain.one o e1 ⟨"item.create", itemCreateParams j hid⟩
        rwa [h2] at this
      cases r2 with
      | error err =>
        have hE : ensureItem o rs hid j =
            (⟨e2, rs.log ++ [(⟨"item.get", itemGetParams hid (itemKeyStr j)⟩, Except.ok payload),
                (⟨"item.create", itemCreateParams j hid⟩, Except.error err)]⟩,
             Except.error Halt.fatal) := by
          simp [ensureItem, issue, h1, hg, h2]
        rw [hE]
        exact ⟨[(⟨"item.get", itemGetParams hid (itemKeyStr j)⟩, Except.ok payload),
            (⟨"item.create", itemCreateParams j hid⟩, Except.error err)], rfl,
          cleanLog_ok_then_err _ payload _ err, hc2⟩
      | ok payload2 =>
        have hE : ensureItem o rs hid j =
            (⟨e2, rs.log ++ [(⟨"item.get", itemGetParams hid (itemKeyStr j)⟩, Except.ok payload),
                (⟨"item.create", itemCreateParams j hid⟩, Except.ok payload2)]⟩,
             Except.ok ()) := by
          simp [ensureItem, issue, h1, hg, h2]
        rw [hE]
        exact ⟨[(⟨"item.get", itemGetParams hid (itemKeyStr j)⟩, Except.ok payload),
            (⟨"item.create", itemCreateParams j hid⟩, Except.ok payload2)], rfl,
          allOk_pair_ok _ _ payload payload2, hc2⟩

theorem createGroup0_clean {σ : Type} (o : Oracle σ) (rs : RunSt σ) (name : String) :
    ∃ Δ, (createGroup0 o rs name).1.log = rs.log ++ Δ ∧
      cleanLog Δ (isFatal (createGroup0 o rs name).2) ∧
      OracleChain o rs.env (createGroup0 o rs name).1.env := by
  rcases h1 : o rs.env ⟨"hostgroup.create", .obj [("name", .str name)]⟩ with ⟨e1, r1⟩
  have hc1 : OracleChain o rs.env e1 := by
    have := OracleChain.one o rs.env ⟨"hostgroup.create", .obj [("name", .str name)]⟩
    rwa [h1] at this
  cases r1 with
  | error err =>
    have hE : createGroup0 o rs name =
        (⟨e1, rs.log ++ [(⟨"hostgroup.create", .obj [("name", .str name)]⟩, Except.error err)]⟩,
         Except.error Halt.fatal) := by
      simp [createGroup0, issue, h1]
    rw [hE]
    exact ⟨[(⟨"hostgroup.create", .obj [("name", .str name)]⟩, Except.error err)], rfl,
      cleanLog_err_single _ err, hc1⟩
  | ok payload =>
    cases he : extractCreatedId "groupids" payload with
    | some gid =>
      have hE : createGroup0 o rs name =
          (⟨e1, rs.log ++ [(⟨"hostgroup.create", .obj [("name", .str name)]⟩, Except.ok payload)]⟩,
           Except.ok gid) := by
        simp [createGroup0, issue, h1, he]
      rw [hE]
      exact ⟨[(⟨"hostgroup.create", .obj [("name", .str name)]⟩, Except.ok payload)], rfl,
        allOk_single_ok _ payload, hc1⟩
    | none =>
      have hE : createGroup0 o rs name =
          (⟨e1, rs.log ++ [(⟨"hostgroup.create", .obj [("name", .str name)]⟩, Except.ok payload)]⟩,
           Except.error Halt.panicked) := by
        simp [createGroup0, issue, h1, he]
      rw [hE]
      exact ⟨[(⟨"hostgroup.create", .obj [("name", .str name)]⟩, Except.ok payload)], rfl,
        allOk_single_ok _ payload, hc1⟩

theorem createHost0_clean {σ : Type} (o : Oracle σ) (rs : RunSt σ) (name gid : String) :
    ∃ Δ, (createHost0 o rs name gid).1.log = rs.log ++ Δ ∧
      cleanLog Δ (isFatal (createHost0 o rs name gid).2) ∧
      OracleChain o rs.env (createHost0 o rs name gid).1.env := by
  rcases h1 : o rs.env ⟨"host.create", hostCreateParams0 name gid⟩ with ⟨e1, r1⟩
  have hc1 : OracleChain o rs.env e1 := by
    have := OracleChain.one o rs.env ⟨"host.create", hostCreateParams0 name gid⟩
    rwa [h1] at this
  cases r1 with
  | error err =>
    have hE : createHost0 o rs name gid =
        (⟨e1, rs.log ++ [(⟨"host.create", hostCreateParams0 name gid⟩, Except.error err)]⟩,
         Except.error Halt.fatal) := by
      simp [createHost0, issue, h1]
    rw [hE]
    exact ⟨[(⟨"host.create", hostCreateParams0 name gid⟩, Except.error err)], rfl,
      cleanLog_err_single _ err, hc1⟩
  | ok payload =>
    cases he : extractCreatedId "hostids" payload with
    | some hid =>
      have hE : createHost0 o rs name gid =
          (⟨e1, rs.log ++ [(⟨"host.create", hostCreateParams0 name gid⟩, Except.ok payload)]⟩,
           Except.ok hid) := by
        simp [createHost0, issue, h1, he]
      rw [hE]
      exact ⟨[(⟨"host.create", hostCreateParams0 name gid⟩, Except.ok payload)], rfl,
        allOk_single_ok _ payload, hc1⟩
    | none =>
      have hE : createHost0 o rs name gid =
          (⟨e1, rs.log ++ [(⟨"host.create", hostCreateParams0 name gid⟩, Except.ok payload)]⟩,
           Except.error Halt.panicked) := by
        simp [createHost0, issue, h1, he]
      rw [hE]
      exact ⟨[(⟨"host.create", hostCreateParams0 name gid⟩, Except.ok payload)], rfl,
        allOk_single_ok _ payload, hc1⟩

theorem createItem0_clean {σ : Type} (o : Oracle σ) (rs : RunSt σ) (key hid : String) :
    ∃ Δ, (createItem0 o rs key hid).1.log = rs.log ++ Δ ∧
      cleanLog Δ (isFatal (createItem0 o rs key hid).2) ∧
      OracleChain o rs.env (createItem0 o rs key hid).1.env := by
  rcases h1 : o rs.env ⟨"item.create", itemCreateParams0 key hid⟩ with ⟨e1, r1⟩
  have hc1 : OracleChain o rs.env e1 := by
    have := OracleChain.one o rs.env ⟨"item.create", itemCreateParams0 key hid⟩
    rwa [h1] at this
  cases r1 with
  | error err =>
    have hE : createItem0 o rs key hid =
        (⟨e1, rs.log ++ [(⟨"item.create", itemCreateParams0 key hid⟩, Except.error err)]⟩,
         Except.error Halt.fatal) := by
      simp [createItem0, issue, h1]
    rw [hE]
    exact ⟨[(⟨"item.create", itemCreateParams0 key hid⟩, Except.error err)], rfl,
      cleanLog_err_single _ err, hc1⟩
  | ok payload =>
    cases he : extractCreatedId "itemids" payload with
    | some iid =>
      have hE : createItem0 o rs key hid =
          (⟨e1, rs.log ++ [(⟨"item.create", itemCreateParams0 key hid⟩, Except.ok payload)]⟩,
           Except.ok iid) := by
        simp [createItem0, issue, h1, he]
      rw [hE]
      exact ⟨[(⟨"item.create", itemCreateParams0 key hid⟩, Except.ok payload)], rfl,
        allOk_single_ok _ payload, hc1⟩
    | none =>
      have hE : createItem0 o rs key hid =
          (⟨e1, rs.log ++ [(⟨"item.create", itemCreateParams0 key hid⟩, Except.ok payload)]⟩,
           Except.error Halt.panicked) := by
        simp [createItem0, issue, h1, he]
      rw [hE]
      exact ⟨[(⟨"item.create", itemCreateParams0 key hid⟩, Except.ok payload)], rfl,
        allOk_single_ok _ payload, hc1⟩

theorem ensureItemsFrom_clean {σ : Type} (o : Oracle σ) :
    ∀ (count j : Nat) (rs : RunSt σ) (hid : String),
      ∃ Δ, (ensureItemsFrom o rs hid j count).1.log = rs.log ++ Δ ∧
        cleanLog Δ (isFatal (ensureItemsFrom o rs hid j count).2) ∧
        OracleChain o rs.env (ensureItemsFrom o rs hid j count).1.env := by
  intro count
  induction count with
  | zero =>
    intro j rs hid
    exact ⟨[], by simp [ensureItemsFrom], allOk_nil, .refl rs.env⟩
  | succ count ih =>
    intro j rs hid
    obtain ⟨Δ₁, hL1, hC1, hch1⟩ := ensureItem_clean o rs hid j
    rcases hI : ensureItem o rs hid j with ⟨rs₁, out₁⟩
    rw [hI] at hL1 hC1 hch1
    cases out₁ with
    | ok u =>
      obtain ⟨Δ₂, hL2, hC2, hch2⟩ := ih (j + 1) rs₁ hid
      have hE : ensureItemsFrom o rs hid j (count + 1) =
          ensureItemsFrom o rs₁ hid (j + 1) count := by
        simp [ensureItemsFrom, hI]
      rw [hE]
      refine ⟨Δ₁ ++ Δ₂, ?_, cleanLog_append hC1 hC2, hch1.trans hch2⟩
      rw [hL2, hL1, List.append_assoc]
    | error h =>
      have hE : ensureItemsFrom o rs hid j (count + 1) = (rs₁, Except.error h) := by
        simp [ensureItemsFrom, hI]
      rw [hE]
      exact ⟨Δ₁, hL1, hC1, hch1⟩

theorem ensureHostsFrom_clean {σ : Type} (o : Oracle σ) :
    ∀ (count i : Nat) (rs : RunSt σ) (dns gid : String) (M : Nat) (acc : List String),
      ∃ Δ, (ensureHostsFrom o rs dns gid M acc i count).1.log = rs.log ++ Δ ∧
        cleanLog Δ (isFatal (ensureHostsFrom o rs dns gid M acc i count).2) ∧
        OracleChain o rs.env (ensureHostsFrom o rs dns gid M acc i count).1.env := by
  intro count
  induction count with
  | zero =>
    intro i rs dns gid M acc
    exact ⟨[], by simp [ensureHostsFrom], allOk_nil, .refl rs.env⟩
  | succ count ih =>
    intro i rs dns gid M acc
    obtain ⟨Δ₁, hL1, hC1, hch1⟩ := ensureHost_clean o rs dns gid (hostNameStr i)
    rcases hH : ensureHost o rs dns gid (hostNameStr i) with ⟨rs₁, out₁⟩
    rw [hH] at hL1 hC1 hch1
    cases out₁ with
    | ok hid =>
      obtain ⟨Δ₂, hL2, hC2, hch2⟩ := ensureItemsFrom_clean o M 1 rs₁ hid
      rcases hIt : ensureItemsFrom o rs₁ hid 1 M with ⟨rs₂, out₂⟩
      rw [hIt] at hL2 hC2 hch2
      cases out₂ with
      | ok u =>
        obtain ⟨Δ₃, hL3, hC3, hch3⟩ := ih (i + 1) rs₂ dns gid M (acc ++ [hostNameStr i])
        have hE : ensureHostsFrom o rs dns gid M acc i (count + 1) =
            ensureHostsFrom o rs₂ dns gid M (acc ++ [hostNameStr i]) (i + 1) count := by
          simp [ensureHostsFrom, hH, hIt]
        rw [hE]
        refine ⟨Δ₁ ++ (Δ₂ ++ Δ₃), ?_, cleanLog_append hC1 (cleanLog_append hC2 hC3),
          hch1.trans (hch2.trans hch3)⟩
        rw [hL3, hL2, hL1]
        simp [List.append_assoc]
      | error h =>
        have hE : ensureHostsFrom o rs dns gid M acc i (count + 1) = (rs₂, Except.error h) := by
          simp [ensureHostsFrom, hH, hIt]
        rw [hE]
        refine ⟨Δ₁ ++ Δ₂, ?_, ?_, hch1.trans hch2⟩
        · rw [hL2, hL1, List.append_assoc]
        · simp only [isFatal_error] at hC2 ⊢
          exact cleanLog_append hC1 hC2
    | error h =>
      have hE : ensureHostsFrom o rs dns gid M acc i (count + 1) = (rs₁, Except.error h) := by
        simp [ensureHostsFrom, hH]
      rw [hE]
      refine ⟨Δ₁, hL1, ?_, hch1⟩
      simp only [isFatal_error] at hC1 ⊢
      exact hC1

theorem provision1_clean {σ : Type} (o : Oracle σ) (env : σ) (dns : String) (N M : Nat) :
    ∃ Δ, (provision1 o env dns N M).1.log = Δ ∧
      cleanLog Δ (isFatal (provision1 o env dns N M).2) ∧
      OracleChain o env (provision1 o env dns N M).1.env := by
  obtain ⟨Δ₁, hL1, hC1, hch1⟩ := ensureGroup_clean o ⟨env, []⟩
  rcases hG : ensureGroup o ⟨env, []⟩ with ⟨rs₁, out₁⟩
  rw [hG] at hL1 hC1 hch1
  simp only [List.nil_append] at hL1
  cases out₁ with
  | ok gid =>
    obtain ⟨Δ₂, hL2, hC2, hch2⟩ := ensureHostsFrom_clean o N 1 rs₁ dns gid M []
    rcases hH : ensureHostsFrom o rs₁ dns gid M [] 1 N with ⟨rs₂, out₂⟩
    rw [hH] at hL2 hC2 hch2
    cases out₂ with
    | ok hostNames =>
      have hE : provision1 o env dns N M = (rs₂, Except.ok (gid, hostNames)) := by
        simp [provision1, hG, hH]
      rw [hE]
      exact ⟨Δ₁ ++ Δ₂, by rw [hL2, hL1], cleanLog_append hC1 hC2, hch1.trans hch2⟩
    | error h =>
      have hE : provision1 o env dns N M = (rs₂, Except.error h) := by
        simp [provision1, hG, hH]
      rw [hE]
      refine ⟨Δ₁ ++ Δ₂, by rw [hL2, hL1], ?_, hch1.trans hch2⟩
      simp only [isFatal_error] at hC2 ⊢
      exact cleanLog_append hC1 hC2
  | error h =>
    have hE : provision1 o env dns N M = (rs₁, Except.error h) := by
      simp [provision1, hG]
    rw [hE]
    refine ⟨Δ₁, hL1, ?_, hch1⟩
    simp only [isFatal_error] at hC1 ⊢
    exact hC1

theorem createItems0From_clean {σ : Type} (o : Oracle σ) :
    ∀ (count j : Nat) (rs : RunSt σ) (hid : String),
      ∃ Δ, (createItems0From o rs hid j count).1.log = rs.log ++ Δ ∧
        cleanLog Δ (isFatal (createItems0From o rs hid j count).2) ∧
        OracleChain o rs.env (createItems0From o rs hid j count).1.env := by
  intro count
  induction count with
  | zero =>
    intro j rs hid
    exact ⟨[], by simp [createItems0From], allOk_nil, .refl rs.env⟩
  | succ count ih =>
    intro j rs hid
    obtain ⟨Δ₁, hL1, hC1, hch1⟩ := createItem0_clean o rs (itemKey0Str j) hid
    rcases hI : createItem0 o rs (itemKey0Str j) hid with ⟨rs₁, out₁⟩
    rw [hI] at hL1 hC1 hch1
    cases out₁ with
    | ok iid =>
      obtain ⟨Δ₂, hL2, hC2, hch2⟩ := ih (j + 1) rs₁ hid
      have hE : createItems0From o rs hid j (count + 1) =
          createItems0From o rs₁ hid (j + 1) count := by
        simp [createItems0From, hI]
      rw [hE]
      refine ⟨Δ₁ ++ Δ₂, ?_, cleanLog_append hC1 hC2, hch1.trans hch2⟩
      rw [hL2, hL1, List.append_assoc]
    | error h =>
      have hE : createItems0From o rs hid j (count + 1) = (rs₁, Except.error h) := by
        simp [createItems0From, hI]
      rw [hE]
      refine ⟨Δ₁, hL1, ?_, hch1⟩
      simp only [isFatal_error] at hC1 ⊢
      exact hC1

theorem createHosts0From_clean {σ : Type} (o : Oracle σ) :
    ∀ (count i : Nat) (rs : RunSt σ) (gid : String) (M : Nat) (acc : List String),
      ∃ Δ, (createHosts0From o rs gid M acc i count).1.log = rs.log ++ Δ ∧
        cleanLog Δ (isFatal (createHosts0From o rs gid M acc i count).2) ∧
        OracleChain o rs.env (createHosts0From o rs gid M acc i count).1.env := by
  intro count
  induction count with
  | zero =>
    intro i rs gid M acc
    exact ⟨[], by simp [createHosts0From], allOk_nil, .refl rs.env⟩
  | succ count ih =>
    intro i rs gid M acc
    obtain ⟨Δ₁, hL1, hC1, hch1⟩ := createHost0_clean o rs (hostName0Str i) gid
    rcases hH : createHost0 o rs (hostName0Str i) gid with ⟨rs₁, out₁⟩
    rw [hH] at hL1 hC1 hch1
    cases out₁ with
    | ok hid =>
      obtain ⟨Δ₂, hL2, hC2, hch2⟩ := createItems0From_clean o M 1 rs₁ hid
      rcases hIt : createItems0From o rs₁ hid 1 M with ⟨rs₂, out₂⟩
      rw [hIt] at hL2 hC2 hch2
      cases out₂ with
      | ok u =>
        obtain ⟨Δ₃, hL3, hC3, hch3⟩ := ih (i + 1) rs₂ gid M (acc ++ [hostName0Str i])
        have hE : createHosts0From o rs gid M acc i (count + 1) =
            createHosts0From o rs₂ gid M (acc ++ [hostName0Str i]) (i + 1) count := by
          simp [createHosts0From, hH, hIt]
        rw [hE]
        refine ⟨Δ₁ ++ (Δ₂ ++ Δ₃), ?_, cleanLog_append hC1 (cleanLog_append hC2 hC3),
          hch1.trans (hch2.trans hch3)⟩
        rw [hL3, hL2, hL1]
        simp [List.append_assoc]
      | error h =>
        have hE : createHosts0From o rs gid M acc i (count + 1) = (rs₂, Except.error h) := by
          simp [createHosts0From, hH, hIt]
        rw [hE]
        refine ⟨Δ₁ ++ Δ₂, ?_, ?_, hch1.trans hch2⟩
        · rw [hL2, hL1, List.append_assoc]
        · simp only [isFatal_error] at hC2 ⊢
          exact cleanLog_append hC1 hC2
    | error h =>
      have hE : createHosts0From o rs gid M acc i (count + 1) = (rs₁, Except.error h) := by
        simp [createHosts0From, hH]
      rw [hE]
      refine ⟨Δ₁, hL1, ?_, hch1⟩
      simp only [isFatal_error] at hC1 ⊢
      exact hC1

theorem provision0_clean {σ : Type} (o : Oracle σ) (env : σ) (N M : Nat) :
    ∃ Δ, (provision0 o env N M).1.log = Δ ∧
      cleanLog Δ (isFatal (provision0 o env N M).2) ∧
      OracleChain o env (provision0 o env N M).1.env := by
  obtain ⟨Δ₁, hL1, hC1, hch1⟩ := createGroup0_clean o ⟨env, []⟩ groupName0
  rcases hG : createGroup0 o ⟨env, []⟩ groupName0 with ⟨rs₁, out₁⟩
  rw [hG] at hL1 hC1 hch1
  simp only [List.nil_append] at hL1
  cases out₁ with
  | ok gid =>
    obtain ⟨Δ₂, hL2, hC2, hch2⟩ := createHosts0From_clean o N 1 rs₁ gid M []
    rcases hH : createHosts0From o rs₁ gid M [] 1 N with ⟨rs₂, out₂⟩
    rw [hH] at hL2 hC2 hch2
    cases out₂ with
    | ok hostNames =>
      have hE : provision0 o env N M = (rs₂, Except.ok (gid, hostNames)) := by
        simp [provision0, hG, hH]
      rw [hE]
      exact ⟨Δ₁ ++ Δ₂, by rw [hL2, hL1], cleanLog_append hC1 hC2, hch1.trans hch2⟩
    | error h =>
      have hE : provision0 o env N M = (rs₂, Except.error h) := by
        simp [provision0, hG, hH]
      rw [hE]
      refine ⟨Δ₁ ++ Δ₂, by rw [hL2, hL1], ?_, hch1.trans hch2⟩
      simp only [isFatal_error] at hC2 ⊢
      exact cleanLog_append hC1 hC2
  | error h =>
    have hE : provision0 o env N M = (rs₁, Except.error h) := by
      simp [provision0, hG]
    rw [hE]
    refine ⟨Δ₁, hL1, ?_, hch1⟩
    simp only [isFatal_error] at hC1 ⊢
    exact hC1

/-- Claim C3: for every environment (any transport/decode/remote behaviour
of every call), the provisioning run halts at its first failing call: the
call log consists of successful calls followed, exactly when the run is
fatal, by the single failing call — no call (in particular no create) is
issued after the failure point. Moreover, against the idealized server the
initial state's groups, hosts, and items are a prefix of the final
state's, for both variants: objects created before a failure are left in
place and nothing is ever rolled back. -/
theorem c3_abort_at_first_failure {σ : Type} (o : Oracle σ) (env : σ) (s0 s1 : ZState)
    (dns dns' : String) (N M N0 M0 : Nat) :
    cleanLog (provision1 o env dns N M).1.log (isFatal (provision1 o env dns N M).2) ∧
    cleanLog (provision0 o env N M).1.log (isFatal (provision0 o env N M).2) ∧
    ZExtends s0 (provision1 serveZ s0 dns' N M).1.env ∧
    ZExtends s1 (provision0 serveZ s1 N0 M0).1.env := by
  obtain ⟨Δ₁, hL1, hC1, _⟩ := provision1_clean o env dns N M
  obtain ⟨Δ₂, hL2, hC2, _⟩ := provision0_clean o env N M
  obtain ⟨_, _, _, hch3⟩ := provision1_clean serveZ s0 dns' N M
  obtain ⟨_, _, _, hch4⟩ := provision0_clean serveZ s1 N0 M0
  exact ⟨by rw [hL1]; exact hC1, by rw [hL2]; exact hC2,
    chain_extends hch3, chain_extends hch4⟩

end ZabbixLoadTest
